import Mathlib

/-!
# Verification of the `docker-datastore` data-cleaning pipeline

Shallow embedding of `src/datastore/src/data_loading.py` (the repository's only
source file).  Pandas dataframes are modelled as a list of column names plus a
list of rows (each row a list of cell values); the pandas operations used by the
source (rename, drop, replace, best-effort numeric coercion, left merge on one
key, concat, nested-dict unnesting, the sqlite range join) are translated
directly.  Python exceptions are modelled with `Except String`; functions that
the source wraps in `try/except` return `Option`.  In-place pandas mutation
(`inplace=True`, column assignment on an argument, assignment into a shared
lookup table) is made explicit by returning the final state of the mutated
argument next to the result.

Modelling conventions (each noted again at the definition it concerns):
* float64 cells carry exact rationals; NaN is a distinct cell value.
* dtype of a column is inferred from its cells: all ints -> int64, all
  numeric with a float or NaN present -> float64, otherwise object.
* duplicate column names resolve to the first occurrence (no claim below
  exercises duplicate names).
* values nested inside JSON dictionaries (adverse-event fields, blood visit
  fields) are strings, as delivered by the reporting API.
-/

/-- A pandas cell value.  `vrec1` is a one-level JSON dictionary cell (a blood
visit dictionary), `vrec2` a two-level one (the per-subject adverse-effects
dictionary: instance key -> field dictionary). -/
inductive Val where
  | vstr (s : String)
  | vint (n : Int)
  | vfloat (q : ℚ)
  | nan
  | vbool (b : Bool)
  | vtime (t : Int)
  | vtd (t : Int)
  | vrec1 (fields : List (String × String))
  | vrec2 (insts : List (String × List (String × String)))
deriving DecidableEq, Repr

namespace Val

/-- `pd.isnull` on a cell. -/
def isNull : Val → Bool
  | nan => true
  | _ => false

def isInt : Val → Bool
  | vint _ => true
  | _ => false

def isFloatOrNan : Val → Bool
  | vfloat _ => true
  | nan => true
  | _ => false

/-- Numeric view of a cell, used for pandas join-key comparison and SQL
comparisons (int64 and float64 compare by value). -/
def numOf : Val → Option ℚ
  | vint n => some n
  | vfloat q => some q
  | _ => none

end Val

/-- pandas merge key equality: numeric values compare by value across
int64/float64; otherwise structural equality.  pandas `merge` matches NaN keys
with NaN keys, which structural equality provides. -/
def keyMatches (a b : Val) : Bool :=
  match a.numOf, b.numOf with
  | some x, some y => x == y
  | _, _ => a == b

/-- Column dtypes that the source inspects (`np.issubdtype(..., np.number)` at
line 171, `== np.float64` at line 182). -/
inductive Dtype where
  | int64
  | float64
  | object
deriving DecidableEq, Repr

/-- dtype inference for a column: all-int columns are int64; columns of
numbers containing a float or NaN are float64 (pandas upcasts, and an all-NaN
column is float64); everything else is object. -/
def inferDtype (vs : List Val) : Dtype :=
  if vs.isEmpty then .object
  else if vs.all Val.isInt then .int64
  else if vs.all (fun v => v.isInt || v.isFloatOrNan) then .float64
  else .object

def Dtype.isNumeric : Dtype → Bool
  | .int64 => true
  | .float64 => true
  | .object => false

/-- A dataframe: column names plus rows of cells, positionally aligned. -/
structure DF where
  cols : List String
  rows : List (List Val)
deriving DecidableEq, Repr

namespace DF

/-- Position of a column (first occurrence). -/
def colIdx (df : DF) (c : String) : Nat := df.cols.indexOf c

def hasCol (df : DF) (c : String) : Bool := df.cols.contains c

/-- Cell of a row at a named column (first occurrence; NaN when absent). -/
def cellAt (df : DF) (row : List Val) (c : String) : Val :=
  row.getD (df.colIdx c) .nan

/-- A named column as a list of cells. -/
def col (df : DF) (c : String) : List Val :=
  df.rows.map (fun r => df.cellAt r c)

/-- Rows are positionally aligned with the column list. -/
def wf (df : DF) : Bool := df.rows.all (fun r => r.length == df.cols.length)

end DF

/-!
## Scalar parsing and numeric coercion

`pd.to_numeric` and `astype('float64')` accept decimal literals with an
optional sign and fractional part.  The parser records whether a decimal point
was present: `to_numeric` keeps `"8"` as int64 but turns `"8.0"` into float64.
-/

/-- Read a nonempty digit string as a natural number. -/
def digitsVal (cs : List Char) : Option Nat :=
  if cs.isEmpty || !cs.all Char.isDigit then none
  else some (cs.foldl (fun acc c => acc * 10 + (c.toNat - '0'.toNat)) 0)

/-- Parse a decimal literal; returns the value and whether a decimal point was
present.  Accepts `"12"`, `"-3"`, `"+4"`, `"1.5"`, `"1."`, `".5"`.  (The value
is assembled from integer parts so that integer literals reduce by
computation.) -/
def parseDecimal (s : String) : Option (ℚ × Bool) :=
  let cs := s.toList
  let (sgn, body) : Int × List Char :=
    match cs with
    | '-' :: r => (-1, r)
    | '+' :: r => (1, r)
    | r => (1, r)
  let ip := body.takeWhile Char.isDigit
  let rest := body.drop ip.length
  match rest with
  | [] =>
    match digitsVal ip with
    | some n => some (((sgn * (n : Int) : Int) : ℚ), false)
    | none => none
  | '.' :: fp =>
    if fp.all Char.isDigit ∧ (ip ≠ [] ∨ fp ≠ []) then
      let ipn : Nat := ip.foldl (fun acc c => acc * 10 + (c.toNat - '0'.toNat)) 0
      let fpn : Nat := fp.foldl (fun acc c => acc * 10 + (c.toNat - '0'.toNat)) 0
      some ((((sgn * ((ipn * 10 ^ fp.length + fpn : Nat) : Int) : Int) : ℚ))
        / (((10 ^ fp.length : Nat) : Int) : ℚ), true)
    else none
  | _ => none

/-- One cell under `pd.to_numeric`.  `none` means the conversion raises for
that cell.  Datetime cells convert to nanoseconds since the epoch; dictionary
cells cannot convert. -/
def toNumericCell : Val → Option Val
  | .vint n => some (.vint n)
  | .vfloat q => some (.vfloat q)
  | .nan => some .nan
  | .vbool b => some (.vint (if b then 1 else 0))
  | .vtime t => some (.vint (t * 1000000000))
  | .vstr s =>
    match parseDecimal s with
    | some (q, true) => some (.vfloat q)
    | some (q, false) => if q.den = 1 then some (.vint q.num) else some (.vfloat q)
    | none => none
  | _ => none

def Val.promoteFloat : Val → Val
  | .vint n => .vfloat n
  | v => v

/-- `pd.to_numeric(column, errors='ignore')`: the column converts only when
every cell converts; a float or NaN among the results upcasts the ints. -/
def toNumericIgnoreCol (vs : List Val) : List Val :=
  match vs.mapM toNumericCell with
  | none => vs
  | some ws => if ws.any Val.isFloatOrNan then ws.map Val.promoteFloat else ws

/-- `df.apply(pd.to_numeric, errors='ignore')`: columnwise best-effort
conversion.  Rows are rebuilt positionally. -/
def toNumericIgnoreDF (df : DF) : DF :=
  let colsVals := (List.range df.cols.length).map
    (fun i => toNumericIgnoreCol (df.rows.map (fun r => r.getD i .nan)))
  { cols := df.cols
    rows := (List.range df.rows.length).map
      (fun j => colsVals.map (fun cv => cv.getD j .nan)) }

/-- `pd.to_numeric(column, errors='coerce')` acting on one cell: unconvertible
cells become NaN.  (The int/float column-level upcast does not change numeric
values and no later step inspects the dtype of a coerced column, so it is not
tracked here.) -/
def toNumericCoerceCell (v : Val) : Val :=
  (toNumericCell v).getD .nan

/-- One cell under `astype('float64')` (Python `float()` per cell): numeric
strings convert, anything else raises. -/
def floatCastCell : Val → Except String Val
  | .vint n => .ok (.vfloat n)
  | .vfloat q => .ok (.vfloat q)
  | .nan => .ok .nan
  | .vbool b => .ok (.vfloat (if b then 1 else 0))
  | .vstr s =>
    match parseDecimal s with
    | some (q, _) => .ok (.vfloat q)
    | none => .error ("ValueError: could not convert string to float: " ++ s)
  | _ => .error "TypeError: float() argument"

/-!
## Dataframe operations used by the source
-/

namespace DF

/-- `df.rename(columns=m)`: renames every matching column name. -/
def renameCols (df : DF) (m : String → String) : DF :=
  { cols := df.cols.map m, rows := df.rows }

/-- `df.drop(columns=cs)`: raises `KeyError` when a name is absent,
otherwise removes every column with a listed name. -/
def dropColsE (df : DF) (cs : List String) : Except String DF :=
  if cs.all df.hasCol then
    .ok { cols := df.cols.filter (fun c => !cs.contains c)
          rows := df.rows.map (fun r =>
            ((df.cols.zip r).filter (fun p => !cs.contains p.1)).map (·.2)) }
  else .error "KeyError: drop"

/-- `df.replace(old, new)` over every cell. -/
def replaceCell (df : DF) (old new : Val) : DF :=
  { cols := df.cols
    rows := df.rows.map (fun r => r.map (fun v => if v = old then new else v)) }

/-- Overwrite or append a whole column (`df[c] = values`). -/
def setColVals (df : DF) (c : String) (vs : List Val) : DF :=
  if df.hasCol c then
    { cols := df.cols
      rows := (df.rows.zip vs).map (fun p => p.1.set (df.colIdx c) p.2) }
  else
    { cols := df.cols ++ [c]
      rows := (df.rows.zip vs).map (fun p => p.1 ++ [p.2]) }

/-- Overwrite or append a column computed per row (`df[c] = f(rows)`). -/
def setColF (df : DF) (c : String) (f : List Val → Val) : DF :=
  if df.hasCol c then
    { cols := df.cols
      rows := df.rows.map (fun r => r.set (df.colIdx c) (f r)) }
  else
    { cols := df.cols ++ [c]
      rows := df.rows.map (fun r => r ++ [f r]) }

/-- Transform the cells of one column in place. -/
def mapCol (df : DF) (c : String) (f : Val → Val) : DF :=
  { cols := df.cols
    rows := df.rows.map (fun r => r.set (df.colIdx c) (f (r.getD (df.colIdx c) .nan))) }

/-- `df.to_dict('records')`. -/
def toRecords (df : DF) : List (List (String × Val)) :=
  df.rows.map (fun r => df.cols.zip r)

end DF

/-- `left.merge(right, how='left', on=key)`: the key column is kept from the
left frame, the right frame contributes its other columns; left rows without a
match are padded with NaN; a left row with several matches fans out.  (pandas
suffixes colliding non-key names with `_x`/`_y`; no collision arises in this
program, so names are kept as-is.) -/
def mergeLeft (l r : DF) (key : String) : DF :=
  let rcols := r.cols.filter (fun c => c ≠ key)
  { cols := l.cols ++ rcols
    rows := l.rows.flatMap (fun lrow =>
      let k := l.cellAt lrow key
      let ms := r.rows.filter (fun rr => keyMatches k (r.cellAt rr key))
      if ms.isEmpty then [lrow ++ rcols.map (fun _ => Val.nan)]
      else ms.map (fun rr => lrow ++ rcols.map (fun c => r.cellAt rr c))) }

/-- `pd.concat([a, b])` along rows with `sort=False`: the union of the column
lists in order of first appearance; cells absent from a frame become NaN. -/
def concatDF (a b : DF) : DF :=
  let cols := a.cols ++ b.cols.filter (fun c => !a.cols.contains c)
  { cols := cols
    rows := a.rows.map (fun r => cols.map (fun c => if a.hasCol c then a.cellAt r c else .nan))
      ++ b.rows.map (fun r => cols.map (fun c => if b.hasCol c then b.cellAt r c else .nan)) }

/-- First-seen union of key lists (column order of `pd.json_normalize` /
`DataFrame.from_dict(..., orient='index')`). -/
def unionKeys (ls : List (List String)) : List String :=
  ls.foldl (fun acc ks => acc ++ ks.filter (fun k => !acc.contains k)) []

/-- Boolean duplicate-freeness check. -/
def nodupB {α : Type} [DecidableEq α] : List α → Bool
  | [] => true
  | a :: rest => !rest.contains a && nodupB rest

/-!
## Display dictionaries (lines 45-74)
-/

/-- A display dictionary: field name -> two-column lookup table, in insertion
order (the source iterates `display_terms_dict.keys()`). -/
abbrev DDict := List (String × DF)

/-- Replace the literal string `"N/A"` with NaN everywhere (line 168). -/
def replaceNADF (df : DF) : DF := df.replaceCell (.vstr "N/A") .nan

/-- Race multi-select overwrite (line 173): a string cell containing the `|`
delimiter becomes the sentinel string `"8"`; `na=False` leaves non-string
cells alone. -/
def raceOverwrite : Val → Val
  | .vstr s => if s.data.contains '|' then .vstr "8" else .vstr s
  | v => v

/-- Lines 172-173: preserve the race column in `dem_race_original`, then
overwrite multi-select values with `"8"`. -/
def raceStage (df : DF) : DF :=
  (df.setColVals "dem_race_original" (df.col "dem_race")).mapCol "dem_race" raceOverwrite

/-- Row-by-row float cast of the cell at position `j` (first failure
raises). -/
def castColFloatRows (j : Nat) : List (List Val) → Except String (List (List Val))
  | [] => .ok []
  | r :: rest =>
    match floatCastCell (r.getD j .nan) with
    | .error e => .error e
    | .ok w =>
      match castColFloatRows j rest with
      | .error e => .error e
      | .ok tail => .ok (r.set j w :: tail)

/-- `display_terms[i].astype('float64')` applied to the key column `i` of a
lookup table (line 184); raises when a cell is not float-convertible. -/
def castColFloat (t : DF) (i : String) : Except String DF :=
  match castColFloatRows (t.colIdx i) t.rows with
  | .error e => .error e
  | .ok rows => .ok { cols := t.cols, rows := rows }

/-- The merge loop of lines 179-185, with the display dictionary threaded as
state: `display_terms = display_terms_dict[i]` aliases the stored table, so
the `astype('float64')` assignment at line 184 mutates the dictionary.  On an
exception the loop aborts with the remaining entries untouched. -/
def mergeDisplayLoop (subs : DF) : DDict → Except String DF × DDict
  | [] => (.ok subs, [])
  | (i, t) :: rest =>
    if subs.hasCol i then
      if inferDtype (subs.col i) = .float64 then
        match castColFloat t i with
        | .error e => (.error e, (i, t) :: rest)
        | .ok t2 =>
          let out := mergeDisplayLoop (mergeLeft subs t2 i) rest
          (out.1, (i, t2) :: out.2)
      else
        let out := mergeDisplayLoop (mergeLeft subs t i) rest
        (out.1, (i, t) :: out.2)
    else
      let out := mergeDisplayLoop subs rest
      (out.1, (i, t) :: out.2)

/-- `clean_subjects_data` (lines 154-187).  The result is paired with the
final state of the display dictionary (mutated by the float casts in the merge
loop); the raw subjects frame itself is never mutated because line 160 copies
it before any in-place operation. -/
def clean_subjects_data (subjects_raw : DF) (display_terms_dict : DDict)
    (drop_cols_list : List String := ["adverse_effects"]) :
    Except String DF × DDict :=
  let s1 := subjects_raw.renameCols (fun c => if c = "index" then "record_id" else c)
  match s1.dropColsE drop_cols_list with
  | .error e => (.error e, display_terms_dict)
  | .ok s2 =>
    let s3 := replaceNADF s2
    if !s3.hasCol "dem_race" then (.error "KeyError: dem_race", display_terms_dict)
    else
      let s4 := if (inferDtype (s3.col "dem_race")).isNumeric then s3 else raceStage s3
      mergeDisplayLoop (toNumericIgnoreDF s4) display_terms_dict

/-- A value sqlite's `to_sql` can store (dictionaries raise). -/
def sqlScalar : Val → Bool
  | .vrec1 _ => false
  | .vrec2 _ => false
  | _ => true

/-- `ids.{id_col} BETWEEN ss.record_id_start AND ss.record_id_end` in sqlite:
numeric comparison; a NULL operand never matches.  (sqlite would compare two
TEXT operands lexicographically; the range bounds in this program are numeric,
so that case is folded into "no match".) -/
def sqlBetween (v a b : Val) : Bool :=
  match v.numOf, a.numOf, b.numOf with
  | some x, some l, some u => decide (l ≤ x) && decide (x ≤ u)
  | _, _, _ => false

/-- `add_screening_site` (lines 189-209): the sqlite inner join of subject ids
against the ranges, followed by `sites.merge(df, how='left', on=id_col)` with
the (id, site) pairs as the LEFT frame — a subject id matching no range is
dropped. -/
def add_screening_site (screening_sites df : DF) (id_col : String) :
    Except String DF :=
  if !df.hasCol id_col then .error "KeyError: id_col"
  else if !((df.col id_col).all sqlScalar &&
      screening_sites.rows.all (fun r => r.all sqlScalar)) then
    .error "InterfaceError: to_sql unsupported type"
  else if !(screening_sites.hasCol "record_id_start" &&
      screening_sites.hasCol "record_id_end" &&
      screening_sites.hasCol "screening_site") then
    .error "OperationalError: no such column"
  else
    let sitesRows := (df.col id_col).flatMap (fun v =>
      screening_sites.rows.filterMap (fun r =>
        if sqlBetween v (screening_sites.cellAt r "record_id_start")
            (screening_sites.cellAt r "record_id_end")
        then some [v, screening_sites.cellAt r "screening_site"] else none))
    let sites : DF := { cols := [id_col, "screening_site"], rows := sitesRows }
    .ok (mergeLeft sites df id_col)

/-- `use_b_if_not_a` (lines 19-24). -/
def use_b_if_not_a (a b : Val) : Val :=
  if !a.isNull then a else b

/-- `get_consented_subjects` (lines 211-216): derive `treatment_site` per row;
`apply` on a frame with rows raises `KeyError` when a referenced column is
missing (on an empty frame the lambda never runs). -/
def get_consented_subjects (s : DF) : Except String DF :=
  if s.rows.isEmpty ||
      (s.hasCol "sp_data_site_display" && s.hasCol "redcap_data_access_group_display") then
    .ok (s.setColF "treatment_site" (fun r =>
      use_b_if_not_a (s.cellAt r "sp_data_site_display")
        (s.cellAt r "redcap_data_access_group_display")))
  else .error "KeyError: treatment_site apply"

/-!
## Adverse events extraction (lines 98-148)
-/

/-- `^\s*$`: empty or all-whitespace. -/
def whitespaceOnly (s : String) : Bool := s.toList.all Char.isWhitespace

/-- The nested-dictionary comprehension of lines 109-113 reads each kept
row's cell with `.keys()`: a cell that is not a dictionary raises
`AttributeError` at the first offender; otherwise each kept row yields its
triple of identifying values plus the instance dictionary. -/
def aeClassify (subjects_data : DF) (adverse_effects_col : String) :
    List (List Val) →
    Except String (List (List Val × List (String × List (String × String))))
  | [] => .ok []
  | r :: rest =>
    match subjects_data.cellAt r adverse_effects_col with
    | .vrec2 d =>
      match aeClassify subjects_data adverse_effects_col rest with
      | .error e => .error e
      | .ok tail =>
        .ok ((["index", "main_record_id", "mcc"].map (subjects_data.cellAt r), d) :: tail)
    | _ => .error "AttributeError: keys"

/-- `extract_adverse_effects_data` (lines 98-129).  Rows keep their order;
instance keys keep dictionary order; the output columns are the three index
columns, `instance`, then the union of field names in order of first
appearance; whitespace-only field values become NaN; a missing field in an
instance becomes NaN.  `to_dict('index')` raises on duplicate index triples,
and with no non-null adverse-effects cell at all, `multi['level_0']` raises a
`KeyError` (the empty frame's index is not a MultiIndex). -/
def extract_adverse_effects_data (subjects_data : DF)
    (adverse_effects_col : String := "adverse_effects") : Except String DF :=
  let index_cols := ["index", "main_record_id", "mcc"]
  if !index_cols.all subjects_data.hasCol then .error "KeyError: set_index"
  else if !subjects_data.hasCol adverse_effects_col then .error "KeyError: column select"
  else
    let keptRows := subjects_data.rows.filter
      (fun r => !(subjects_data.cellAt r adverse_effects_col).isNull)
    if !nodupB (keptRows.map (fun r => index_cols.map (subjects_data.cellAt r))) then
      .error "ValueError: DataFrame index must be unique"
    else
      match aeClassify subjects_data adverse_effects_col keptRows with
      | .error e => .error e
      | .ok kept =>
        let longs := kept.flatMap (fun p => p.2.map (fun inst => (p.1, inst.1, inst.2)))
        if longs.isEmpty then .error "KeyError: level_0"
        else
          let fieldCols := unionKeys (longs.map (fun x => x.2.2.map (·.1)))
          .ok { cols := index_cols ++ ["instance"] ++ fieldCols
                rows := longs.map (fun x =>
                  x.1 ++ [.vstr x.2.1] ++ fieldCols.map (fun f =>
                    match x.2.2.lookup f with
                    | some s => if whitespaceOnly s then .nan else .vstr s
                    | none => Val.nan)) }

/-- `clean_adverse_events` (lines 131-148): numeric coercion then left merges
against the multi-valued display dictionary (no float cast here).  The body's
operations are total in this model, so the `except` branch returning `None`
is not reached. -/
def clean_adverse_events (adverse_events : DF)
    (display_terms_dict_multi : DDict) : Option DF :=
  some (display_terms_dict_multi.foldl
    (fun acc p => if acc.hasCol p.1 then mergeLeft acc p.2 p.1 else acc)
    (toNumericIgnoreDF adverse_events))

/-!
## Blood JSON unnesting (lines 26-41, 222-241)
-/

/-- One JSON payload per center: subject key -> field dictionary. -/
abbrev Payload := List (String × List (String × Val))

/-- `pd.DataFrame.from_dict(payload, orient='index')`: columns are the union
of field names in order of first appearance; the row keys are kept aside
(they become the `index` column on `reset_index`). -/
def keyedFromDict (payload : Payload) : List String × List (String × List Val) :=
  let fields := unionKeys (payload.map (fun p => p.2.map (·.1)))
  (fields, payload.map (fun p => (p.1, fields.map (fun f => (p.2.lookup f).getD .nan))))

/-- `combine_mcc_json` (lines 81-92). -/
def combine_mcc_json (mcc_json : List (String × Payload)) : DF :=
  mcc_json.foldl (fun df p =>
    let fk := keyedFromDict p.2
    let mcc_data0 : DF :=
      { cols := "index" :: fk.1, rows := fk.2.map (fun q => .vstr q.1 :: q.2) }
    let mcc_data := mcc_data0.setColF "mcc" (fun _ => .vstr p.1)
    if df.rows.isEmpty then mcc_data else concatDF df mcc_data)
    { cols := [], rows := [] }

/-- `dict_to_col` (lines 26-35): select the index columns plus the dictionary
column, drop rows whose dictionary cell is null, tag with the category column,
and widen the dictionaries with `pd.json_normalize` (the dictionary column
itself stays in the frame). -/
def dict_to_col (df : DF) (index_cols : List String) (dict_col : String)
    (new_col_name : String := "category") : Except String DF :=
  if !(index_cols ++ [dict_col]).all df.hasCol then .error "KeyError: dict_to_col"
  else
    let sel := index_cols ++ [dict_col]
    let base : DF := { cols := sel, rows := df.rows.map (fun r => sel.map (df.cellAt r)) }
    let kept := base.rows.filter (fun r => !(base.cellAt r dict_col).isNull)
    match kept.mapM (fun r =>
      match base.cellAt r dict_col with
      | .vrec1 fs => Except.ok fs
      | _ => Except.error "TypeError: json_normalize") with
    | .error e => .error e
    | .ok dicts =>
      let normCols := unionKeys (dicts.map (fun fs => fs.map (·.1)))
      .ok { cols := sel ++ [new_col_name] ++ normCols
            rows := (kept.zip dicts).map (fun p =>
              p.1 ++ [.vstr dict_col] ++ normCols.map (fun f =>
                match p.2.lookup f with
                | some s => Val.vstr s
                | none => Val.nan)) }

/-- An element of `mcc_list`: the caller may pass strings or integers (JSON
keys are always strings, so an integer is only found via `str(mcc)`). -/
inductive MccId where
  | mstr (s : String)
  | mint (n : Int)
deriving DecidableEq, Repr

def MccId.toStr : MccId → String
  | mstr s => s
  | mint n => toString n

def MccId.toVal : MccId → Val
  | mstr s => .vstr s
  | mint n => .vint n

/-- Visit-type dictionary columns (line 224). -/
def dictColsList : List String := ["Baseline Visit", "6-Wks Post-Op", "3-Mo Post-Op"]

/-- Lines 231-235: build one center's frame — unnest the payload, drop rows
with a null `screening_site` (`dropna(subset=...)` raises when the column is
absent), move the keys into an `index` column, and tag with the center id. -/
def bloodCenterDF (center : Payload) (mccv : Val) : Except String DF :=
  let fk := keyedFromDict center
  if !fk.1.contains "screening_site" then .error "KeyError: dropna subset"
  else
    let ssIdx := fk.1.indexOf "screening_site"
    let kept := fk.2.filter (fun p => !(p.2.getD ssIdx .nan).isNull)
    let mdf : DF := { cols := "index" :: fk.1, rows := kept.map (fun p => .vstr p.1 :: p.2) }
    .ok (mdf.setColF "MCC" (fun _ => mccv))

/-- Lines 236-240: for each visit-type column present, unnest it and append
the result to the accumulated frame. -/
def bloodVisitConcat (mdf df0 : DF) : Except String DF :=
  dictColsList.foldlM (fun acc c =>
    if mdf.hasCol c then do
      let col_df ← dict_to_col mdf ["index", "MCC", "screening_site"] c "Visit"
      pure (concatDF acc col_df)
    else pure acc) df0

/-- The loop of `bloodjson_to_df` (lines 225-240).  The working variable `m`
persists across iterations: when a center id is found under neither its given
form nor its string form, `m` keeps the previous center's payload (and, on the
first iteration, is still unbound — `if m:` raises `UnboundLocalError`), while
the loop variable `mcc` keeps the missing id, which is what `mdf['MCC'] = mcc`
then tags the rows with.  A bound-but-empty payload is falsy and is skipped. -/
def bloodLoop (json : List (String × Payload)) :
    Option Payload → DF → List MccId → Except String DF
  | _, df, [] => .ok df
  | m, df, mcc :: rest =>
    let m1 := match mcc with
      | .mstr s => match json.lookup s with | some p => some p | none => m
      | .mint _ => m
    let stepped : MccId × Option Payload :=
      match json.lookup mcc.toStr with
      | some p => (.mstr mcc.toStr, some p)
      | none => (mcc, m1)
    match stepped.2 with
    | none => .error "UnboundLocalError: m"
    | some center =>
      if center.isEmpty then bloodLoop json (some center) df rest
      else do
        let mdf ← bloodCenterDF center stepped.1.toVal
        let df2 ← bloodVisitConcat mdf df
        bloodLoop json (some center) df2 rest

/-- `bloodjson_to_df` (lines 222-241). -/
def bloodjson_to_df (json : List (String × Payload)) (mcc_list : List MccId) :
    Except String DF :=
  bloodLoop json none { cols := [], rows := [] } mcc_list

/-!
## Blood cleaning (lines 247-305)
-/

/-- `move_column_inplace` (lines 37-40): `pop` the column then `insert` it at
the given position. -/
def move_column_inplace (df : DF) (c : String) (pos : Nat) : DF :=
  let i := df.colIdx c
  let cvals := df.col c
  { cols := (df.cols.eraseIdx i).insertIdx pos c
    rows := (df.rows.zip cvals).map (fun p => (p.1.eraseIdx i).insertIdx pos p.2) }

/-- `simplify_blooddata` (lines 247-257), with the final state of the mutated
argument as second component: both the `drop(..., inplace=True)` and
`move_column_inplace` write through to the caller's frame, so on success the
argument ends up equal to the returned frame. -/
def simplify_blooddata (blood_df : DF) : Except String DF × DF :=
  match blood_df.dropColsE dictColsList with
  | .error e => (.error e, blood_df)
  | .ok d1 =>
    if !d1.hasCol "Visit" then (.error "KeyError: Visit pop", d1)
    else
      let d2 := move_column_inplace d1 "Visit" 2
      (.ok d2, d2)

/-- Days since 1970-01-01 of a proleptic Gregorian date (the standard civil
calendar computation; all intermediate divisions act on non-negative values,
so truncating division agrees with floor). -/
def daysFromCivil (y m d : Int) : Int :=
  let y2 := if m ≤ 2 then y - 1 else y
  let era := (if y2 ≥ 0 then y2 else y2 - 399) / 400
  let yoe := y2 - era * 400
  let mp := (m + 9) % 12
  let doy := (153 * mp + 2) / 5 + d - 1
  let doe := yoe * 365 + yoe / 4 - yoe / 100 + doy
  era * 146097 + doe - 719468

def twoDigits (a b : Char) : Option Nat :=
  if a.isDigit && b.isDigit then
    some ((a.toNat - '0'.toNat) * 10 + (b.toNat - '0'.toNat))
  else none

/-- Timestamp parser for `pd.to_datetime`, covering the ISO forms
`YYYY-MM-DD HH:MM` and `YYYY-MM-DD HH:MM:SS` delivered by the reporting API;
the result is in seconds since the epoch.  (Out-of-range components are
rejected; the day bound is the coarse 1..31.) -/
def parseDatetime (s : String) : Option Int :=
  let core : List Char → Option Int := fun cs =>
    match cs with
    | [a, b, c, d, '-', m1, m2, '-', d1, d2] => do
      let yh ← twoDigits a b
      let yl ← twoDigits c d
      let mo ← twoDigits m1 m2
      let da ← twoDigits d1 d2
      if 1 ≤ mo ∧ mo ≤ 12 ∧ 1 ≤ da ∧ da ≤ 31 then
        some (daysFromCivil (yh * 100 + yl) mo da * 86400)
      else none
    | _ => none
  let time : List Char → Option Int := fun cs =>
    match cs with
    | [h1, h2, ':', n1, n2] => do
      let h ← twoDigits h1 h2
      let n ← twoDigits n1 n2
      if h < 24 ∧ n < 60 then some (h * 3600 + n * 60) else none
    | [h1, h2, ':', n1, n2, ':', s1, s2] => do
      let h ← twoDigits h1 h2
      let n ← twoDigits n1 n2
      let sec ← twoDigits s1 s2
      if h < 24 ∧ n < 60 ∧ sec < 60 then some (h * 3600 + n * 60 + sec) else none
    | _ => none
  match s.toList.splitOn ' ' with
  | [datePart, timePart] => do
    let dd ← core datePart
    let tt ← time timePart
    some (dd + tt)
  | _ => none

/-- `pd.to_datetime(column, errors='coerce')` on one cell; unparseable cells
become NaT (modelled as NaN — both read back as null).  Numeric epoch inputs
do not occur in this program and coerce to NaN here. -/
def toDatetimeCell : Val → Val
  | .vstr s => match parseDatetime s with | some t => .vtime t | none => .nan
  | .vtime t => .vtime t
  | _ => .nan

/-- Timestamp subtraction; anything involving a missing operand is NaT. -/
def subTime : Val → Val → Val
  | .vtime x, .vtime y => .vtd (x - y)
  | _, _ => .nan

/-- `td.dt.components['hours']*60 + td.dt.components['minutes']` for one cell:
pandas splits a timedelta into floor-days plus a non-negative remainder, so
the hour/minute part equals `(t mod 86400) / 60` with the Euclidean mod —
also for negative intervals (-30 minutes gives 1410). -/
def tdMinutes : Val → Val
  | .vtd t => .vint ((t % 86400) / 60)
  | _ => .nan

/-- Elementwise `<` as pandas computes it on numeric columns: NaN compares
false. -/
def numLtB (a b : Val) : Bool :=
  match a.numOf, b.numOf with
  | some x, some y => decide (x < y)
  | _, _ => false

/-- Elementwise `≤ c` against a constant: NaN compares false. -/
def numLeConstB (a : Val) (c : ℚ) : Bool :=
  match a.numOf with
  | some x => decide (x ≤ c)
  | none => false

/-- `astype(str)` of a cell (NaN prints as the string "nan"; floats do not
occur in the `MCC` column of this program). -/
def strOfVal : Val → String
  | .vstr s => s
  | .vint n => toString n
  | .nan => "nan"
  | .vbool b => if b then "True" else "False"
  | .vfloat q => toString q.num
  | _ => "?"

/-- `'MCC' + MCC.astype(str) + ': ' + screening_site` on one row: string
concatenation, except a missing screening site gives NaN. -/
def siteCell (mccv ssv : Val) : Val :=
  match ssv with
  | .vstr s => .vstr ("MCC" ++ strOfVal mccv ++ ": " ++ s)
  | _ => .nan

/-- The deviation-reason lookup table (lines 289-294). -/
def deviation_df : DF :=
  { cols := ["bscp_protocol_dev_reason", "Deviation Reason"]
    rows := [[.vint 1, .vstr "Unable to obtain blood sample -technical reason"],
             [.vint 2, .vstr "Unable to obtain blood sample -patient related"],
             [.vint 3, .vstr "Sample handling/processing error"]] }

/-- `clean_blooddata` (lines 259-305), with the final state of the mutated
argument as second component.  Lines 266-286 assign columns of the argument in
place; line 295 rebinds the local name to a fresh merged frame, so the
caller's frame ends at the state just after the `Site` column is added. -/
def clean_blooddata (blood_df : DF) : Except String DF × DF :=
  let numeric_cols := ["bscp_aliq_cnt", "bscp_protocol_dev", "bscp_protocol_dev_reason"]
  let datetime_cols := ["bscp_time_blood_draw", "bscp_aliquot_freezer_time", "bscp_time_centrifuge"]
  if !numeric_cols.all blood_df.hasCol then (.error "KeyError: numeric_cols", blood_df)
  else
    let d1 := numeric_cols.foldl (fun acc c => acc.mapCol c toNumericCoerceCell) blood_df
    if !datetime_cols.all d1.hasCol then (.error "KeyError: datetime_cols", d1)
    else
      let d2 := datetime_cols.foldl (fun acc c => acc.mapCol c toDatetimeCell) d1
      let d3 := d2.setColF "time_to_freezer" (fun r =>
        subTime (d2.cellAt r "bscp_aliquot_freezer_time") (d2.cellAt r "bscp_time_blood_draw"))
      let d4 := d3.setColF "time_to_freezer_minutes" (fun r =>
        tdMinutes (d3.cellAt r "time_to_freezer"))
      let d5 := d4.setColF "time_to_centrifuge" (fun r =>
        subTime (d4.cellAt r "bscp_time_centrifuge") (d4.cellAt r "bscp_time_blood_draw"))
      let d6 := d5.setColF "time_to_centrifuge_minutes" (fun r =>
        tdMinutes (d5.cellAt r "time_to_centrifuge"))
      let d7 := d6.setColF "time_values_check" (fun r =>
        .vbool (numLtB (d6.cellAt r "time_to_centrifuge_minutes")
            (d6.cellAt r "time_to_freezer_minutes")
          && numLeConstB (d6.cellAt r "time_to_centrifuge_minutes") 30
          && numLeConstB (d6.cellAt r "time_to_freezer_minutes") 60))
      if !(d7.hasCol "MCC" && d7.hasCol "screening_site") then
        (.error "KeyError: Site", d7)
      else
        let d8 := d7.setColF "Site" (fun r =>
          siteCell (d7.cellAt r "MCC") (d7.cellAt r "screening_site"))
        let d9 := mergeLeft d8 deviation_df "bscp_protocol_dev_reason"
        let d10 := d9.renameCols (fun c =>
          if c = "index" then "ID"
          else if c = "screening_site" then "Screening Site"
          else if c = "bscp_deg_of_hemolysis" then "Hemolysis"
          else c)
        (.ok d10, d8)

/-!
## Remote fetchers and the top-level cleaner (lines 313-479)
-/

/-- An HTTP response, with `body` the result of parsing (`.json()`): `none`
models a body whose parse raises. -/
structure HttpReply (α : Type) where
  status : Nat
  body : Option α

/-- The default `api_root` argument. -/
def apiRootDefault : String :=
  "https://api.a2cps.org/files/v2/download/public/system/a2cps.storage.community/reports"

/-- Result of `get_api_subjects`: the structured failure for a non-200 status,
the subject records on success, or the generic `{'status': 'this is annoying'}`
marker from the outer `except`. -/
inductive SubjFetch where
  | failure (status source : String)
  | records (rs : List (List (String × Val)))
  | annoying
deriving DecidableEq, Repr

/-- `get_api_subjects` (lines 313-359), paired with the list of URLs
requested, in order.  Each resource is requested at most once; a non-200
status aborts before any further request. -/
def get_api_subjects (http : String → HttpReply Payload)
    (api_root : String := apiRootDefault) : SubjFetch × List String :=
  let url1 := api_root ++ "/subjects/subjects-1-latest.json"
  let r1 := http url1
  if r1.status ≠ 200 then (.failure "500" "subjects-1-latest.json", [url1])
  else
    match r1.body with
    | none => (.annoying, [url1])
    | some subjects1 =>
      let url2 := api_root ++ "/subjects/subjects-2-latest.json"
      let r2 := http url2
      if r2.status ≠ 200 then (.failure "500" "subjects-2-latest.json", [url1, url2])
      else
        match r2.body with
        | none => (.annoying, [url1, url2])
        | some subjects2 =>
          (.records (combine_mcc_json [("1", subjects1), ("2", subjects2)]).toRecords,
            [url1, url2])

/-- Result of `get_api_blood`: the structured failure, the success record
`{'date': now, 'data': {'blood': rows}}`, or `None` from the outer `except`. -/
inductive BloodFetch where
  | failure (status source : String)
  | success (date : Val) (rs : List (List (String × Val)))
  | fetchFailed
deriving DecidableEq, Repr

/-- `get_api_blood` (lines 437-479), paired with the list of URLs requested in
order.  `now` stands for the `datetime.now()` taken at entry. -/
def get_api_blood (http : String → HttpReply Payload) (now : Val)
    (api_root : String := apiRootDefault) : BloodFetch × List String :=
  let url1 := api_root ++ "/blood/blood-1-latest.json"
  let r1 := http url1
  if r1.status ≠ 200 then (.failure "500" "blood-1-latest.json", [url1])
  else
    match r1.body with
    | none => (.fetchFailed, [url1])
    | some blood1 =>
      let url2 := api_root ++ "/blood/blood-2-latest.json"
      let r2 := http url2
      if r2.status ≠ 200 then (.failure "500" "blood-2-latest.json", [url1, url2])
      else
        match r2.body with
        | none => (.fetchFailed, [url1, url2])
        | some blood2 =>
          match bloodjson_to_df [("1", blood1), ("2", blood2)] [.mstr "1", .mstr "2"] with
          | .error _ => (.fetchFailed, [url1, url2])
          | .ok blood =>
            match (simplify_blooddata blood).1 with
            | .error _ => (.fetchFailed, [url1, url2])
            | .ok b => (.success now b.toRecords, [url1, url2])

/-- A row mapping, as produced by `to_dict('records')`. -/
abbrev Rec := List (String × Val)

/-- The reference to `current_datetime` at line 381.  The module assigns
`current_datetime` only inside the bodies of `get_api_subjects`,
`get_api_imaging` and `get_api_blood` (lines 316, 394, 440), where it is a
function-local; no assignment exists at module scope, so evaluating the name
inside `create_clean_subjects` raises `NameError`. -/
def current_datetime_module : Except String Val :=
  .error "NameError: name current_datetime is not defined"

/-- `create_clean_subjects` (lines 361-388): the whole body is wrapped in
`try/except` returning `None`; on the success path the timestamp lookup at
line 381 is still evaluated. -/
def create_clean_subjects (subjects_raw screening_sites : DF)
    (display_terms_dict display_terms_dict_multi : DDict) :
    Option (Val × (List Rec × List Rec × List Rec)) :=
  let body : Except String (Val × (List Rec × List Rec × List Rec)) := do
    let subjects0 ← (clean_subjects_data subjects_raw display_terms_dict).1
    let subjects ← add_screening_site screening_sites subjects0 "record_id"
    let consented ← get_consented_subjects subjects
    let ae0 ← extract_adverse_effects_data subjects_raw
    let adverse_events ←
      match clean_adverse_events ae0 display_terms_dict_multi with
      | some x => Except.ok x
      | none => Except.error "AttributeError: to_dict on None"
    let dt ← current_datetime_module
    Except.ok (dt, (subjects.toRecords, consented.toRecords, adverse_events.toRecords))
  body.toOption

/-- The subjects-cleaning pipeline on fixed inputs (clean, range join, derive
consented), with the display dictionary threaded as state — the composition
that claim-level determinism is about. -/
def subjects_pipeline (subjects_raw screening_sites : DF) (dd : DDict) :
    Except String (DF × DF) × DDict :=
  let step1 := clean_subjects_data subjects_raw dd
  match step1.1 with
  | .error e => (.error e, step1.2)
  | .ok subjects0 =>
    match add_screening_site screening_sites subjects0 "record_id" with
    | .error e => (.error e, step1.2)
    | .ok subjects =>
      match get_consented_subjects subjects with
      | .error e => (.error e, step1.2)
      | .ok consented => (.ok (subjects, consented), step1.2)

/-!
## Shared helper lemmas
-/

theorem except_bind_ok {α β : Type} {e : Except String α} {f : α → Except String β} {b : β}
    (h : e >>= f = .ok b) : ∃ a, e = .ok a ∧ f a = .ok b := by
  cases e with
  | error s => simp [Bind.bind, Except.bind] at h
  | ok a => exact ⟨a, rfl, by simpa [Bind.bind, Except.bind] using h⟩

theorem except_toOption_eq_none {α : Type} {e : Except String α}
    (h : ∀ a, e ≠ .ok a) : e.toOption = none := by
  cases e with
  | error s => rfl
  | ok a => exact absurd rfl (h a)

theorem except_bind_congr {α β : Type} {x : Except String α}
    {f g : α → Except String β} (h : ∀ a, f a = g a) : x >>= f = x >>= g := by
  cases x with
  | error e => rfl
  | ok a => exact h a

theorem except_bind_pure_of {α : Type} {x : Except String α}
    {f : α → Except String α} (h : ∀ a, f a = Except.ok a) : x >>= f = x := by
  cases x with
  | error e => rfl
  | ok a => exact h a

theorem list_isEmpty_false {α : Type} {l : List α} (h : l ≠ []) :
    l.isEmpty = false := by
  cases l with
  | nil => exact absurd rfl h
  | cons a t => rfl

/-!
## Claim C1
-/

/-- C1: the claim says that on inputs where the cleaning steps succeed,
`create_clean_subjects` returns the `{date, data}` mapping and not the null
sentinel.  In fact the function returns `None` on EVERY input: line 381 reads
the module-level name `current_datetime`, which is never defined at module
scope, so the body always raises `NameError` and the surrounding
`try/except` returns `None`. -/
theorem create_clean_subjects_always_none
    (subjects_raw screening_sites : DF) (dd ddm : DDict) :
    create_clean_subjects subjects_raw screening_sites dd ddm = none := by
  unfold create_clean_subjects
  apply except_toOption_eq_none
  intro a h
  obtain ⟨a1, -, h⟩ := except_bind_ok h
  obtain ⟨a2, -, h⟩ := except_bind_ok h
  obtain ⟨a3, -, h⟩ := except_bind_ok h
  obtain ⟨a4, -, h⟩ := except_bind_ok h
  obtain ⟨a5, -, h⟩ := except_bind_ok h
  obtain ⟨a6, h6, -⟩ := except_bind_ok h
  exact absurd h6 (by simp [current_datetime_module])

/-!
## Claim C2
-/

/-- C2: whenever a required resource answers with a non-200 status, the
fetchers (`get_api_subjects` for the two subject-center resources,
`get_api_blood` for the two blood resources) return the structured failure
`{status: '500', source: <first failing resource>}`; the request log shows
each URL requested at most once (no retry) and stops at the failing resource,
and the failure value carries no data from resources fetched earlier. -/
theorem fetch_failure_propagation
    (http : String → HttpReply Payload) (now : Val) (api_root : String) :
    ((http (api_root ++ "/subjects/subjects-1-latest.json")).status ≠ 200 →
      get_api_subjects http api_root =
        (.failure "500" "subjects-1-latest.json",
          [api_root ++ "/subjects/subjects-1-latest.json"])) ∧
    ((http (api_root ++ "/subjects/subjects-1-latest.json")).status = 200 →
      (http (api_root ++ "/subjects/subjects-1-latest.json")).body.isSome →
      (http (api_root ++ "/subjects/subjects-2-latest.json")).status ≠ 200 →
      get_api_subjects http api_root =
        (.failure "500" "subjects-2-latest.json",
          [api_root ++ "/subjects/subjects-1-latest.json",
           api_root ++ "/subjects/subjects-2-latest.json"])) ∧
    ((http (api_root ++ "/blood/blood-1-latest.json")).status ≠ 200 →
      get_api_blood http now api_root =
        (.failure "500" "blood-1-latest.json",
          [api_root ++ "/blood/blood-1-latest.json"])) ∧
    ((http (api_root ++ "/blood/blood-1-latest.json")).status = 200 →
      (http (api_root ++ "/blood/blood-1-latest.json")).body.isSome →
      (http (api_root ++ "/blood/blood-2-latest.json")).status ≠ 200 →
      get_api_blood http now api_root =
        (.failure "500" "blood-2-latest.json",
          [api_root ++ "/blood/blood-1-latest.json",
           api_root ++ "/blood/blood-2-latest.json"])) := by
  refine ⟨fun h1 => ?_, fun h1 hp h2 => ?_, fun h1 => ?_, fun h1 hp h2 => ?_⟩
  · simp [get_api_subjects, h1]
  · cases hb : (http (api_root ++ "/subjects/subjects-1-latest.json")).body with
    | none => simp [hb] at hp
    | some p => simp [get_api_subjects, h1, hb, h2]
  · simp [get_api_blood, h1]
  · cases hb : (http (api_root ++ "/blood/blood-1-latest.json")).body with
    | none => simp [hb] at hp
    | some p => simp [get_api_blood, h1, hb, h2]

/-!
## Claim C8
-/

theorem setColF_hasCol_self (df : DF) (c : String) (f : List Val → Val) :
    (df.setColF c f).hasCol c = true := by
  unfold DF.setColF
  by_cases h : df.hasCol c
  · simp only [h, if_true]
    exact h
  · simp only [h, Bool.false_eq_true, if_false]
    simp [DF.hasCol]

/-- A blood frame as it reaches `simplify_blooddata`. -/
def bloodPreSimplifyC8 : DF :=
  { cols := ["index", "MCC", "Visit", "screening_site",
             "Baseline Visit", "6-Wks Post-Op", "3-Mo Post-Op"]
    rows := [[Val.vstr "1", Val.vstr "1", Val.vstr "Baseline Visit", Val.vstr "A",
              Val.nan, Val.nan, Val.nan]] }

/-- C8 counterexample: `simplify_blooddata` drops the visit-dictionary
columns with `inplace=True`, so the blood table passed in does NOT come back
unchanged — refuting the claim that every cleaning function leaves its
arguments unmodified. -/
theorem cleaning_mutation_counterexample :
    (simplify_blooddata bloodPreSimplifyC8).2 ≠ bloodPreSimplifyC8 := by decide

/-- C8 (amended): `clean_subjects_data` never modifies the raw subjects table
(line 160 copies it), but the display dictionary is handed back with each
per-field lookup table either unchanged or replaced by its float64-cast
version (the in-place `astype` at line 184); `simplify_blooddata` and
`clean_blooddata` mutate the blood table argument — on success the argument
ends as `simplify_blooddata`'s returned frame, and `clean_blooddata` leaves
the argument with the computed columns (e.g. `Site`) written into it. -/
theorem cleaning_mutation_frame :
    (∀ (subjects_raw : DF) (dd : DDict),
      List.Forall₂ (fun a b : String × DF =>
        b.1 = a.1 ∧ (b.2 = a.2 ∨ castColFloat a.2 a.1 = Except.ok b.2))
        dd (clean_subjects_data subjects_raw dd).2) ∧
    (∀ (df res post : DF), simplify_blooddata df = (Except.ok res, post) →
      post = res) ∧
    (∀ (df res post : DF), clean_blooddata df = (Except.ok res, post) →
      post.hasCol "Site" = true) := by
  have hrefl : ∀ (dd : DDict),
      List.Forall₂ (fun a b : String × DF =>
        b.1 = a.1 ∧ (b.2 = a.2 ∨ castColFloat a.2 a.1 = Except.ok b.2)) dd dd := by
    intro dd
    exact List.forall₂_same.mpr (fun x _ => ⟨rfl, Or.inl rfl⟩)
  have hloop : ∀ (dd : DDict) (subs : DF),
      List.Forall₂ (fun a b : String × DF =>
        b.1 = a.1 ∧ (b.2 = a.2 ∨ castColFloat a.2 a.1 = Except.ok b.2))
        dd (mergeDisplayLoop subs dd).2 := by
    intro dd
    induction dd with
    | nil => intro subs; exact List.Forall₂.nil
    | cons p rest ih =>
      intro subs
      obtain ⟨i, t⟩ := p
      simp only [mergeDisplayLoop]
      by_cases h1 : subs.hasCol i
      · simp only [h1, if_true]
        by_cases h2 : inferDtype (subs.col i) = Dtype.float64
        · simp only [h2, if_true]
          cases hc : castColFloat t i with
          | error e => exact List.Forall₂.cons ⟨rfl, Or.inl rfl⟩ (hrefl rest)
          | ok t2 => exact List.Forall₂.cons ⟨rfl, Or.inr hc⟩ (ih _)
        · simp only [h2, if_false]
          exact List.Forall₂.cons ⟨rfl, Or.inl rfl⟩ (ih _)
      · simp only [h1, if_false]
        exact List.Forall₂.cons ⟨rfl, Or.inl rfl⟩ (ih _)
  refine ⟨?_, ?_, ?_⟩
  · intro raw dd
    simp only [clean_subjects_data]
    cases hd : (raw.renameCols (fun c => if c = "index" then "record_id" else c)).dropColsE
        ["adverse_effects"] with
    | error e => exact hrefl dd
    | ok s2 =>
      by_cases hr : (replaceNADF s2).hasCol "dem_race"
      · simp only [hr, Bool.not_true, Bool.false_eq_true, if_false]
        exact hloop dd _
      · simp only [hr, Bool.not_false, if_true]
        exact hrefl dd
  · intro df res post h
    simp only [simplify_blooddata] at h
    cases hd : df.dropColsE dictColsList with
    | error e =>
      rw [hd] at h
      exact absurd (congrArg Prod.fst h) (by simp)
    | ok d1 =>
      rw [hd] at h
      by_cases hv : d1.hasCol "Visit"
      · simp only [hv, Bool.not_true, Bool.false_eq_true, if_false] at h
        have h1 : Except.ok (move_column_inplace d1 "Visit" 2) = Except.ok res :=
          congrArg Prod.fst h
        have h2 : move_column_inplace d1 "Visit" 2 = post := congrArg Prod.snd h
        rw [← h2]
        exact Except.ok.inj h1
      · simp only [hv, Bool.not_false, if_true] at h
        exact absurd (congrArg Prod.fst h) (by simp)
  · intro df res post h
    simp only [clean_blooddata] at h
    split at h
    · exact absurd (congrArg Prod.fst h) (by simp)
    · split at h
      · exact absurd (congrArg Prod.fst h) (by simp)
      · split at h
        · exact absurd (congrArg Prod.fst h) (by simp)
        · have h2 := congrArg Prod.snd h
          simp only at h2
          rw [← h2]
          exact setColF_hasCol_self _ _ _

/-- A blood frame with the full simplified schema (all measurement cells
missing), for exercising `clean_blooddata`'s mutation. -/
def bloodFullC8 : DF :=
  { cols := ["index", "MCC", "Visit", "screening_site", "bscp_aliq_cnt",
             "bscp_protocol_dev", "bscp_protocol_dev_reason", "bscp_time_blood_draw",
             "bscp_aliquot_freezer_time", "bscp_time_centrifuge", "bscp_deg_of_hemolysis"]
    rows := [[Val.vstr "1", Val.vstr "1", Val.vstr "Baseline Visit", Val.vstr "A",
              Val.nan, Val.nan, Val.nan, Val.nan, Val.nan, Val.nan, Val.nan]] }

/-- The frame `clean_blooddata` hands back as the mutated argument for
`bloodFullC8` (computed columns written in, no merge/rename applied). -/
def bloodFullC8post : DF :=
  { cols := ["index", "MCC", "Visit", "screening_site", "bscp_aliq_cnt",
             "bscp_protocol_dev", "bscp_protocol_dev_reason", "bscp_time_blood_draw",
             "bscp_aliquot_freezer_time", "bscp_time_centrifuge", "bscp_deg_of_hemolysis",
             "time_to_freezer", "time_to_freezer_minutes", "time_to_centrifuge",
             "time_to_centrifuge_minutes", "time_values_check", "Site"]
    rows := [[Val.vstr "1", Val.vstr "1", Val.vstr "Baseline Visit", Val.vstr "A",
              Val.nan, Val.nan, Val.nan, Val.nan, Val.nan, Val.nan, Val.nan,
              Val.nan, Val.nan, Val.nan, Val.nan, Val.vbool false, Val.vstr "MCC1: A"]] }

/-- The frame `clean_blooddata` returns for `bloodFullC8`. -/
def bloodFullC8res : DF :=
  { cols := ["ID", "MCC", "Visit", "Screening Site", "bscp_aliq_cnt",
             "bscp_protocol_dev", "bscp_protocol_dev_reason", "bscp_time_blood_draw",
             "bscp_aliquot_freezer_time", "bscp_time_centrifuge", "Hemolysis",
             "time_to_freezer", "time_to_freezer_minutes", "time_to_centrifuge",
             "time_to_centrifuge_minutes", "time_values_check", "Site", "Deviation Reason"]
    rows := [[Val.vstr "1", Val.vstr "1", Val.vstr "Baseline Visit", Val.vstr "A",
              Val.nan, Val.nan, Val.nan, Val.nan, Val.nan, Val.nan, Val.nan,
              Val.nan, Val.nan, Val.nan, Val.nan, Val.vbool false, Val.vstr "MCC1: A",
              Val.nan]] }

/-- The simplified four-column frame for `bloodPreSimplifyC8`. -/
def bloodSimpleC8 : DF :=
  { cols := ["index", "MCC", "Visit", "screening_site"]
    rows := [[Val.vstr "1", Val.vstr "1", Val.vstr "Baseline Visit", Val.vstr "A"]] }

/-- Concrete witness for `cleaning_mutation_frame`: the hypothesis-bearing
conjuncts applied at concrete frames. -/
theorem cleaning_mutation_frame_witness :
    (simplify_blooddata bloodPreSimplifyC8).2 = bloodSimpleC8 ∧
    bloodFullC8post.hasCol "Site" = true :=
  ⟨by
    have h := cleaning_mutation_frame.2.1 bloodPreSimplifyC8 bloodSimpleC8
      bloodSimpleC8 rfl
    have h2 : (simplify_blooddata bloodPreSimplifyC8).2 = bloodSimpleC8 := by decide
    exact h2,
   cleaning_mutation_frame.2.2 bloodFullC8 bloodFullC8res bloodFullC8post rfl⟩

/-!
## Claim C3
-/

/-- The column schema of a blood table as `bloodjson_to_df` plus
`simplify_blooddata` produce it (one visit type; `Visit` moved to position
2). -/
def bloodInCols : List String :=
  ["index", "MCC", "Visit", "screening_site", "bscp_time_blood_draw",
   "bscp_aliquot_freezer_time", "bscp_time_centrifuge", "bscp_aliq_cnt",
   "bscp_protocol_dev", "bscp_protocol_dev_reason", "bscp_deg_of_hemolysis"]

/-- One blood record (arbitrary cell contents over the fixed schema). -/
structure BloodRow where
  idx : Val
  mcc : Val
  visit : Val
  site : Val
  draw : Val
  freezer : Val
  centrifuge : Val
  aliq : Val
  dev : Val
  devReason : Val
  hemolysis : Val
deriving DecidableEq, Repr

def BloodRow.toList (r : BloodRow) : List Val :=
  [r.idx, r.mcc, r.visit, r.site, r.draw, r.freezer, r.centrifuge,
   r.aliq, r.dev, r.devReason, r.hemolysis]

/-- A blood table over the produced schema. -/
def mkBloodDF (rows : List BloodRow) : DF :=
  { cols := bloodInCols, rows := rows.map BloodRow.toList }

/-- The per-row image of lines 266-286 (coercions plus computed columns). -/
def bloodRowClean (r : BloodRow) : List Val :=
  let draw := toDatetimeCell r.draw
  let freezer := toDatetimeCell r.freezer
  let centrifuge := toDatetimeCell r.centrifuge
  let t2f := subTime freezer draw
  let t2fm := tdMinutes t2f
  let t2c := subTime centrifuge draw
  let t2cm := tdMinutes t2c
  [r.idx, r.mcc, r.visit, r.site, draw, freezer, centrifuge,
   toNumericCoerceCell r.aliq, toNumericCoerceCell r.dev,
   toNumericCoerceCell r.devReason, r.hemolysis,
   t2f, t2fm, t2c, t2cm,
   .vbool (numLtB t2cm t2fm && numLeConstB t2cm 30 && numLeConstB t2fm 60),
   siteCell r.mcc r.site]

/-- The cells the deviation-reason merge appends to a row whose (coerced) key
cell is `v`: the matching lookup text, or NaN with no match. -/
def devCellsFor (v : Val) : List Val :=
  if keyMatches v (.vint 1) then [.vstr "Unable to obtain blood sample -technical reason"]
  else if keyMatches v (.vint 2) then [.vstr "Unable to obtain blood sample -patient related"]
  else if keyMatches v (.vint 3) then [.vstr "Sample handling/processing error"]
  else [.nan]

theorem flatMap_singleton_eq_map {α β : Type} (l : List α) (f : α → List β)
    (g : α → β) (h : ∀ x, f x = [g x]) : l.flatMap f = l.map g := by
  induction l with
  | nil => rfl
  | cons a t ih => simp [List.flatMap_cons, h, ih]

theorem keyMatches_int_unique (v : Val) (a b : Int) (hab : a ≠ b)
    (h : keyMatches v (.vint a) = true) : keyMatches v (.vint b) = false := by
  cases v with
  | vint n =>
    simp only [keyMatches, Val.numOf, beq_iff_eq] at h
    simp only [keyMatches, Val.numOf, beq_eq_false_iff_ne, ne_eq]
    intro hb
    have hq : (a : ℚ) = (b : ℚ) := by rw [← h]; exact hb
    exact hab (by exact_mod_cast hq)
  | vfloat q =>
    simp only [keyMatches, Val.numOf, beq_iff_eq] at h
    simp only [keyMatches, Val.numOf, beq_eq_false_iff_ne, ne_eq]
    intro hb
    have hq : (a : ℚ) = (b : ℚ) := by rw [← h]; exact hb
    exact hab (by exact_mod_cast hq)
  | vstr s => simp [keyMatches, Val.numOf] at h
  | nan => simp [keyMatches, Val.numOf] at h
  | vbool b2 => simp [keyMatches, Val.numOf] at h
  | vtime t => simp [keyMatches, Val.numOf] at h
  | vtd t => simp [keyMatches, Val.numOf] at h
  | vrec1 d => simp [keyMatches, Val.numOf] at h
  | vrec2 d => simp [keyMatches, Val.numOf] at h

/-- The deviation-reason merge matches each row against at most one of the
three lookup rows, so it is a per-row map appending the looked-up text. -/
theorem mergeLeft_dev (l : DF) :
    mergeLeft l deviation_df "bscp_protocol_dev_reason"
    = { cols := l.cols ++ ["Deviation Reason"]
        rows := l.rows.map (fun lrow =>
          lrow ++ devCellsFor (l.cellAt lrow "bscp_protocol_dev_reason")) } := by
  unfold mergeLeft
  simp only [deviation_df]
  congr 1
  apply flatMap_singleton_eq_map
  intro lrow
  set v := l.cellAt lrow "bscp_protocol_dev_reason" with hv
  by_cases h1 : keyMatches v (.vint 1)
  · have h2 := keyMatches_int_unique v 1 2 (by decide) h1
    have h3 := keyMatches_int_unique v 1 3 (by decide) h1
    simp [List.filter, DF.cellAt, DF.colIdx, devCellsFor, h1, h2, h3]
  · by_cases h2 : keyMatches v (.vint 2)
    · have h3 := keyMatches_int_unique v 2 3 (by decide) h2
      simp [List.filter, DF.cellAt, DF.colIdx, devCellsFor, h1, h2, h3]
    · by_cases h3 : keyMatches v (.vint 3)
      · simp [List.filter, DF.cellAt, DF.colIdx, devCellsFor, h1, h2, h3]
      · simp [List.filter, DF.cellAt, DF.colIdx, devCellsFor, h1, h2, h3]

/-- Columns of the mutated blood frame (schema plus the computed columns). -/
def bloodPostCols : List String :=
  bloodInCols ++ ["time_to_freezer", "time_to_freezer_minutes", "time_to_centrifuge",
   "time_to_centrifuge_minutes", "time_values_check", "Site"]

/-- Columns of the returned cleaned blood frame (renamed, with the deviation
text appended). -/
def bloodOutCols : List String :=
  ["ID", "MCC", "Visit", "Screening Site", "bscp_time_blood_draw",
   "bscp_aliquot_freezer_time", "bscp_time_centrifuge", "bscp_aliq_cnt",
   "bscp_protocol_dev", "bscp_protocol_dev_reason", "Hemolysis",
   "time_to_freezer", "time_to_freezer_minutes", "time_to_centrifuge",
   "time_to_centrifuge_minutes", "time_values_check", "Site", "Deviation Reason"]

set_option maxHeartbeats 1000000 in
theorem clean_blooddata_mk_snd (rows : List BloodRow) :
    (clean_blooddata (mkBloodDF rows)).2
      = { cols := bloodPostCols, rows := rows.map bloodRowClean } := by
  induction rows with
  | nil => rfl
  | cons r rest ih =>
    calc (clean_blooddata (mkBloodDF (r :: rest))).2
        = { cols := bloodPostCols,
            rows := bloodRowClean r :: (clean_blooddata (mkBloodDF rest)).2.rows } := rfl
      _ = { cols := bloodPostCols, rows := (r :: rest).map bloodRowClean } := by
          rw [ih]
          rfl

set_option maxHeartbeats 1000000 in
/-- `clean_blooddata` on a schema-true blood table, in closed form: every
step is a per-row transformation (the deviation merge never fans out). -/
theorem clean_blooddata_mk_fst (rows : List BloodRow) :
    (clean_blooddata (mkBloodDF rows)).1
      = .ok { cols := bloodOutCols
              rows := rows.map (fun r =>
                bloodRowClean r ++ devCellsFor (toNumericCoerceCell r.devReason)) } := by
  have h1 : (clean_blooddata (mkBloodDF rows)).1
      = .ok (DF.renameCols
          (mergeLeft ((clean_blooddata (mkBloodDF rows)).2) deviation_df
            "bscp_protocol_dev_reason")
          (fun c => if c = "index" then "ID"
            else if c = "screening_site" then "Screening Site"
            else if c = "bscp_deg_of_hemolysis" then "Hemolysis" else c)) := rfl
  rw [clean_blooddata_mk_snd, mergeLeft_dev] at h1
  rw [h1]
  congr 1
  unfold DF.renameCols
  rw [List.map_map]
  rfl

/-- Total accessor for the QC flag cell of output row `k`. -/
def flagAt (res : Except String DF) (k : Nat) : Option Val :=
  match res with
  | .ok out => (out.rows.get? k).map (fun orow => out.cellAt orow "time_values_check")
  | .error _ => none

theorem numLtB_int (a b : Int) : numLtB (.vint a) (.vint b) = decide (a < b) := by
  simp only [numLtB, Val.numOf]
  exact decide_eq_decide.mpr Int.cast_lt

theorem numLeConstB_int (a c : Int) : numLeConstB (.vint a) (c : ℚ) = decide (a ≤ c) := by
  simp only [numLeConstB, Val.numOf]
  refine decide_eq_decide.mpr ?_
  exact_mod_cast Iff.rfl

set_option maxHeartbeats 1000000 in
/-- C3 (amended): for a blood record whose three timestamps parse, the QC
flag is true exactly when the TRUNCATED MINUTE intervals (hour and minute
components of the timedelta, i.e. `(t mod 86400) div 60` on the interval in
seconds) satisfy: centrifuge-minutes < freezer-minutes, centrifuge-minutes
≤ 30 and freezer-minutes ≤ 60.  The code compares the minute metrics, not
the raw times, so sub-minute orderings are invisible to the flag. -/
theorem blood_qc_flag (rows : List BloodRow) (k : Nat) (r : BloodRow)
    (t0 tc tf : Int)
    (hk : rows.get? k = some r)
    (hdraw : toDatetimeCell r.draw = .vtime t0)
    (hcent : toDatetimeCell r.centrifuge = .vtime tc)
    (hfreez : toDatetimeCell r.freezer = .vtime tf) :
    flagAt ((clean_blooddata (mkBloodDF rows)).1) k
      = some (.vbool (decide (((tc - t0) % 86400) / 60 < ((tf - t0) % 86400) / 60)
          && decide (((tc - t0) % 86400) / 60 ≤ 30)
          && decide (((tf - t0) % 86400) / 60 ≤ 60))) := by
  rw [clean_blooddata_mk_fst]
  unfold flagAt
  simp only [List.get?_map, hk, Option.map_some']
  have hcell : DF.cellAt
      { cols := bloodOutCols
        rows := rows.map (fun r =>
          bloodRowClean r ++ devCellsFor (toNumericCoerceCell r.devReason)) }
      (bloodRowClean r ++ devCellsFor (toNumericCoerceCell r.devReason))
      "time_values_check"
      = .vbool (numLtB
          (tdMinutes (subTime (toDatetimeCell r.centrifuge) (toDatetimeCell r.draw)))
          (tdMinutes (subTime (toDatetimeCell r.freezer) (toDatetimeCell r.draw)))
        && numLeConstB
          (tdMinutes (subTime (toDatetimeCell r.centrifuge) (toDatetimeCell r.draw))) 30
        && numLeConstB
          (tdMinutes (subTime (toDatetimeCell r.freezer) (toDatetimeCell r.draw))) 60) := rfl
  rw [hcell, hdraw, hcent, hfreez]
  simp only [subTime, tdMinutes]
  rw [numLtB_int]
  rw [show (30 : ℚ) = ((30 : Int) : ℚ) by norm_num, numLeConstB_int]
  rw [show (60 : ℚ) = ((60 : Int) : ℚ) by norm_num, numLeConstB_int]

/-- A blood record with draw 10:00:00, centrifuge 10:10:30, freezer
10:10:50 on the same day: the centrifuge time precedes the freezer time and
both intervals are far inside the windows. -/
def bloodRowC3 : BloodRow :=
  ⟨.vstr "1", .vstr "1", .vstr "Baseline Visit", .vstr "A",
   .vstr "2021-01-01 10:00:00", .vstr "2021-01-01 10:10:50",
   .vstr "2021-01-01 10:10:30", .vstr "2", .nan, .vstr "1", .vstr "none"⟩

/-- C3 counterexample: all three timestamps parse, the centrifuge time
precedes the freezer time, the centrifuge interval (10.5 min) is at most 30
minutes and the freezer interval (10.83 min) at most 60 minutes, yet the QC
flag is FALSE: the code compares whole-minute metrics (10 < 10 fails), not
the times, refuting the claim's "exactly when". -/
theorem blood_qc_flag_counterexample :
    flagAt ((clean_blooddata (mkBloodDF [bloodRowC3])).1) 0 = some (.vbool false) ∧
    parseDatetime "2021-01-01 10:00:00" = some 1609495200 ∧
    parseDatetime "2021-01-01 10:10:30" = some 1609495830 ∧
    parseDatetime "2021-01-01 10:10:50" = some 1609495850 ∧
    (1609495830 : Int) < 1609495850 ∧
    (1609495830 - 1609495200 : Int) ≤ 30 * 60 ∧
    (1609495850 - 1609495200 : Int) ≤ 60 * 60 :=
  ⟨rfl, rfl, rfl, rfl, by decide, by decide, by decide⟩

/-- Boundary record: centrifuge at exactly 30 minutes, freezer at exactly 60
minutes after the draw. -/
def bloodRowC3b : BloodRow :=
  ⟨.vstr "1", .vstr "1", .vstr "Baseline Visit", .vstr "A",
   .vstr "2021-01-01 10:00:00", .vstr "2021-01-01 11:00:00",
   .vstr "2021-01-01 10:30:00", .vstr "2", .nan, .vstr "1", .vstr "none"⟩

/-- Record with a 31-minute centrifuge interval. -/
def bloodRowC3c : BloodRow :=
  ⟨.vstr "1", .vstr "1", .vstr "Baseline Visit", .vstr "A",
   .vstr "2021-01-01 10:00:00", .vstr "2021-01-01 11:00:00",
   .vstr "2021-01-01 10:31:00", .vstr "2", .nan, .vstr "1", .vstr "none"⟩

/-- Concrete witness for `blood_qc_flag`: exactly-30/exactly-60 minute
intervals give a true flag; a 31-minute centrifuge interval gives false. -/
theorem blood_qc_flag_witness :
    flagAt ((clean_blooddata (mkBloodDF [bloodRowC3b])).1) 0 = some (.vbool true) ∧
    flagAt ((clean_blooddata (mkBloodDF [bloodRowC3c])).1) 0 = some (.vbool false) :=
  ⟨by
    have h := blood_qc_flag [bloodRowC3b] 0 bloodRowC3b
      1609495200 1609497000 1609498800 rfl rfl rfl rfl
    rw [h]
    decide,
   by
    have h := blood_qc_flag [bloodRowC3c] 0 bloodRowC3c
      1609495200 1609497060 1609498800 rfl rfl rfl rfl
    rw [h]
    decide⟩

/-!
## Claim C6
-/

/-- An adverse-effects cell as extraction expects it: missing or a two-level
dictionary. -/
def aeCellOk : Val → Bool
  | .nan => true
  | .vrec2 _ => true
  | _ => false

theorem isNull_nan : Val.nan.isNull = true := rfl

theorem isNull_vrec2 (d : List (String × List (String × String))) :
    (Val.vrec2 d).isNull = false := rfl

/-- Spec-side description of the unnesting: for each subject row with an
adverse-effects dictionary, for each instance key, one entry carrying the
(index, main_record_id, mcc) triple, the instance key and its field
dictionary; subjects with a missing cell contribute nothing. -/
def aeSpecInstances (subjects : DF) : List (List Val × String × List (String × String)) :=
  subjects.rows.flatMap (fun r =>
    match subjects.cellAt r "adverse_effects" with
    | .vrec2 d => d.map (fun inst =>
        (["index", "main_record_id", "mcc"].map (subjects.cellAt r), inst.1, inst.2))
    | _ => [])

/-- Spec-side column set: the union of field names across all instances, in
order of first appearance. -/
def aeSpecFields (subjects : DF) : List String :=
  unionKeys ((aeSpecInstances subjects).map (fun x => x.2.2.map (·.1)))

/-- Spec-side rows: identifying values, the instance key, then one column per
field with whitespace-only values (and missing fields) as NaN. -/
def aeSpecRows (subjects : DF) : List (List Val) :=
  (aeSpecInstances subjects).map (fun x =>
    x.1 ++ [.vstr x.2.1] ++ (aeSpecFields subjects).map (fun f =>
      match x.2.2.lookup f with
      | some s => if whitespaceOnly s then .nan else .vstr s
      | none => Val.nan))

theorem ae_classify_filter_eq (subjects : DF) (rows : List (List Val))
    (h : rows.all (fun r => aeCellOk (subjects.cellAt r "adverse_effects")) = true) :
    aeClassify subjects "adverse_effects"
      (rows.filter (fun r => !(subjects.cellAt r "adverse_effects").isNull))
    = Except.ok (rows.flatMap (fun r =>
        match subjects.cellAt r "adverse_effects" with
        | .vrec2 d =>
          [(["index", "main_record_id", "mcc"].map (subjects.cellAt r), d)]
        | _ => [])) := by
  induction rows with
  | nil => rfl
  | cons r rest ih =>
    simp only [List.all_cons, Bool.and_eq_true] at h
    obtain ⟨h1, h2⟩ := h
    cases hc : subjects.cellAt r "adverse_effects" <;> rw [hc] at h1 <;>
      simp only [aeCellOk] at h1 <;> try exact absurd h1 (by decide)
    case nan =>
      simp only [List.filter_cons, hc, isNull_nan, Bool.not_true, Bool.false_eq_true,
        if_false, List.flatMap_cons, ih h2]
      rfl
    case vrec2 d =>
      simp only [List.filter_cons, hc, isNull_vrec2, Bool.not_false, if_true,
        List.flatMap_cons]
      simp only [aeClassify, hc, ih h2]
      rfl

theorem ae_longs_eq (subjects : DF) :
    (subjects.rows.flatMap (fun r =>
      match subjects.cellAt r "adverse_effects" with
      | .vrec2 d =>
        [(["index", "main_record_id", "mcc"].map (subjects.cellAt r), d)]
      | _ => [])).flatMap (fun p => p.2.map (fun inst => (p.1, inst.1, inst.2)))
    = aeSpecInstances subjects := by
  unfold aeSpecInstances
  induction subjects.rows with
  | nil => rfl
  | cons r rest ih =>
    simp only [List.flatMap_cons, List.flatMap_append, ih]
    cases hc : subjects.cellAt r "adverse_effects" <;> simp

/-- C6 (amended): on a subjects table carrying the three identifying columns
and the adverse-effects column, whose adverse cells are missing-or-dictionary
with distinct identifying triples among the kept rows, and with AT LEAST ONE
non-missing adverse-effects cell, `extract_adverse_effects_data` returns the
unnested table: one row per (subject, instance) pair, led by the four
identifying columns (index, main_record_id, mcc, instance), one column per
field (union, first-seen order), whitespace-only values as missing.  (With no
non-missing cell at all the function raises instead of returning an empty
table — see the counterexample.) -/
theorem extract_adverse_events_shape (subjects : DF)
    (hidx : (["index", "main_record_id", "mcc"].all subjects.hasCol) = true)
    (hae : subjects.hasCol "adverse_effects" = true)
    (hcells : subjects.rows.all
      (fun r => aeCellOk (subjects.cellAt r "adverse_effects")) = true)
    (hnodup : nodupB ((subjects.rows.filter
        (fun r => !(subjects.cellAt r "adverse_effects").isNull)).map
        (fun r => ["index", "main_record_id", "mcc"].map (subjects.cellAt r))) = true)
    (hsome : aeSpecInstances subjects ≠ []) :
    extract_adverse_effects_data subjects =
      .ok { cols := ["index", "main_record_id", "mcc", "instance"] ++ aeSpecFields subjects
            rows := aeSpecRows subjects } := by
  simp only [extract_adverse_effects_data, hidx, hae, hnodup, Bool.not_true,
    Bool.false_eq_true, if_false]
  rw [ae_classify_filter_eq subjects subjects.rows hcells]
  simp only []
  rw [ae_longs_eq subjects]
  simp only [list_isEmpty_false hsome, Bool.false_eq_true, if_false]
  rfl

/-- A subjects table in which NO subject has an adverse-effects dictionary. -/
def subjNoAdverse : DF :=
  { cols := ["index", "main_record_id", "mcc", "adverse_effects"]
    rows := [[Val.vstr "1", Val.vint 101, Val.vstr "1", Val.nan]] }

/-- C6 counterexample: the claim says subjects with a missing adverse-effects
cell contribute no rows (i.e. the extraction still returns a table); with
every cell missing, the code instead raises — the empty frame's index is not
a MultiIndex, so `multi['level_0']` is a KeyError — and no table is
produced. -/
theorem extract_adverse_events_counterexample :
    extract_adverse_effects_data subjNoAdverse = .error "KeyError: level_0" := by
  rfl

/-- A subject with two adverse-event instances of three fields each, one
field value whitespace-only. -/
def subjTwoInstances : DF :=
  { cols := ["index", "main_record_id", "mcc", "adverse_effects"]
    rows := [[Val.vstr "1", Val.vint 101, Val.vstr "1",
              Val.vrec2 [("1", [("f1", "x"), ("f2", " "), ("f3", "z")]),
                         ("2", [("f1", "y"), ("f2", "w"), ("f3", "v")])]],
             [Val.vstr "2", Val.vint 102, Val.vstr "1", Val.nan]] }

/-- Concrete witness for `extract_adverse_events_shape`: two instances with
three fields give exactly two rows with the four identifying columns plus the
three field columns; the whitespace-only value is NaN; the subject with the
missing cell contributes no row. -/
theorem extract_adverse_events_shape_witness :
    extract_adverse_effects_data subjTwoInstances =
      .ok { cols := ["index", "main_record_id", "mcc", "instance", "f1", "f2", "f3"]
            rows := [[Val.vstr "1", Val.vint 101, Val.vstr "1", Val.vstr "1",
                      Val.vstr "x", Val.nan, Val.vstr "z"],
                     [Val.vstr "1", Val.vint 101, Val.vstr "1", Val.vstr "2",
                      Val.vstr "y", Val.vstr "w", Val.vstr "v"]] } := by
  have h := extract_adverse_events_shape subjTwoInstances (by decide) (by decide)
    (by decide) (by decide) (by decide)
  rw [h]
  rfl

/-!
## Claim C10
-/

/-- A blood JSON with center "1" only: one subject with a screening site and a
Baseline Visit dictionary. -/
def bloodJsonC10 : List (String × Payload) :=
  [("1", [("301", [("screening_site", Val.vstr "A"),
                   ("Baseline Visit", Val.vrec1 [("bscp_aliq_cnt", "2")])])])]

/-- C10 counterexample: with centers `['1','2']` requested and only center "1"
present, center "1"'s single record is unnested twice, but the duplicate row
is tagged with the MISSING center's id "2" (`mdf['MCC'] = mcc` uses the
current loop variable), not with the earlier center's id "1" as the claim
states. -/
theorem bloodjson_missing_center_counterexample :
    (bloodjson_to_df bloodJsonC10 [MccId.mstr "1", MccId.mstr "2"]).map
      (fun d => d.col "MCC") = Except.ok [Val.vstr "1", Val.vstr "2"] ∧
    Val.vstr "2" ≠ Val.vstr "1" := by
  constructor
  · rfl
  · decide

/-- One loop step when the center id is found under its string form: the
payload is processed tagged with the string id. -/
theorem bloodLoop_found (json : List (String × Payload)) (m : Option Payload)
    (df : DF) (mcc : MccId) (rest : List MccId) (center : Payload)
    (h : json.lookup mcc.toStr = some center) (hne : center ≠ []) :
    bloodLoop json m df (mcc :: rest) = (do
      let mdf ← bloodCenterDF center (Val.vstr mcc.toStr)
      let df2 ← bloodVisitConcat mdf df
      bloodLoop json (some center) df2 rest) := by
  simp only [bloodLoop, h, MccId.toVal, list_isEmpty_false hne, Bool.false_eq_true, if_false]

/-- One loop step when the center id is missing under both forms while the
working variable holds a non-empty payload: that payload is processed AGAIN,
tagged with the missing id itself. -/
theorem bloodLoop_missing (json : List (String × Payload)) (center : Payload)
    (df : DF) (mcc : MccId) (rest : List MccId)
    (h : json.lookup mcc.toStr = none) (hne : center ≠ []) :
    bloodLoop json (some center) df (mcc :: rest) = (do
      let mdf ← bloodCenterDF center mcc.toVal
      let df2 ← bloodVisitConcat mdf df
      bloodLoop json (some center) df2 rest) := by
  cases mcc with
  | mstr s =>
    have hs : json.lookup s = none := h
    simp only [bloodLoop, MccId.toStr, MccId.toVal, hs,
      list_isEmpty_false hne, Bool.false_eq_true, if_false]
  | mint n =>
    have hs : json.lookup (toString n) = none := h
    simp only [bloodLoop, MccId.toStr, MccId.toVal, hs,
      list_isEmpty_false hne, Bool.false_eq_true, if_false]

/-- One loop step when the first requested center is missing under both
forms: `if m:` reads the unbound working variable. -/
theorem bloodLoop_unbound (json : List (String × Payload)) (df : DF)
    (mcc : MccId) (rest : List MccId) (h : json.lookup mcc.toStr = none) :
    bloodLoop json none df (mcc :: rest) = .error "UnboundLocalError: m" := by
  cases mcc with
  | mstr s =>
    have hs : json.lookup s = none := h
    simp only [bloodLoop, MccId.toStr, hs]
  | mint n =>
    have hs : json.lookup (toString n) = none := h
    simp only [bloodLoop, MccId.toStr, hs]

/-- C10 (amended): when the first element of `mcc_list` is present in the
JSON under neither its given nor its string form, `bloodjson_to_df` raises
(`if m:` reads the never-bound working variable); when a LATER element is
missing both forms while the working variable holds the most recently looked
up non-empty payload, that payload is unnested a second time and its rows are
tagged with the MISSING center's id (the unchanged loop variable). -/
theorem bloodjson_missing_center :
    (∀ (json : List (String × Payload)) (mcc : MccId) (rest : List MccId),
      json.lookup mcc.toStr = none →
      bloodjson_to_df json (mcc :: rest) = .error "UnboundLocalError: m") ∧
    (∀ (json : List (String × Payload)) (mccA mccB : MccId) (center : Payload),
      json.lookup mccA.toStr = some center → center ≠ [] →
      json.lookup mccB.toStr = none →
      bloodjson_to_df json [mccA, mccB] = (do
        let mdf1 ← bloodCenterDF center (Val.vstr mccA.toStr)
        let df1 ← bloodVisitConcat mdf1 { cols := [], rows := [] }
        let mdf2 ← bloodCenterDF center mccB.toVal
        bloodVisitConcat mdf2 df1)) := by
  constructor
  · intro json mcc rest hnone
    exact bloodLoop_unbound json _ mcc rest hnone
  · intro json mccA mccB center hA hne hB
    show bloodLoop json none { cols := [], rows := [] } (mccA :: [mccB]) = _
    rw [bloodLoop_found json none _ mccA [mccB] center hA hne]
    refine except_bind_congr (fun mdf1 => ?_)
    refine except_bind_congr (fun df1 => ?_)
    rw [bloodLoop_missing json center df1 mccB [] hB hne]
    refine except_bind_congr (fun mdf2 => ?_)
    exact except_bind_pure_of (fun df2 => rfl)

/-- Concrete witness for `bloodjson_missing_center`: an empty JSON with a
first requested center raises; `bloodJsonC10` with centers `['1','2']`
reprocesses center "1"'s payload for the missing center "2". -/
theorem bloodjson_missing_center_witness :
    bloodjson_to_df [] [MccId.mstr "9"] = .error "UnboundLocalError: m" ∧
    bloodjson_to_df bloodJsonC10 [MccId.mstr "1", MccId.mstr "2"] = (do
      let mdf1 ← bloodCenterDF
        [("301", [("screening_site", Val.vstr "A"),
                  ("Baseline Visit", Val.vrec1 [("bscp_aliq_cnt", "2")])])]
        (Val.vstr "1")
      let df1 ← bloodVisitConcat mdf1 { cols := [], rows := [] }
      let mdf2 ← bloodCenterDF
        [("301", [("screening_site", Val.vstr "A"),
                  ("Baseline Visit", Val.vrec1 [("bscp_aliq_cnt", "2")])])]
        (Val.vstr "2")
      bloodVisitConcat mdf2 df1) :=
  ⟨bloodjson_missing_center.1 [] (MccId.mstr "9") [] rfl,
   bloodjson_missing_center.2 bloodJsonC10 (MccId.mstr "1") (MccId.mstr "2")
     [("301", [("screening_site", Val.vstr "A"),
               ("Baseline Visit", Val.vrec1 [("bscp_aliq_cnt", "2")])])]
     rfl (by decide) rfl⟩

/-- An HTTP world where every resource answers 404. -/
def httpAll404 : String → HttpReply Payload := fun _ => ⟨404, none⟩

/-- An HTTP world where the first subject and blood resources answer 200 with
an empty payload and everything else answers 404. -/
def httpFirst200 : String → HttpReply Payload := fun u =>
  if u = apiRootDefault ++ "/subjects/subjects-1-latest.json" ∨
     u = apiRootDefault ++ "/blood/blood-1-latest.json"
  then ⟨200, some []⟩ else ⟨404, none⟩

/-- Concrete witness for `fetch_failure_propagation`: a 404 on the first
resource and a 404 on the second resource each produce the structured failure
naming that resource, with the request log stopping there. -/
theorem fetch_failure_propagation_witness :
    get_api_subjects httpAll404 apiRootDefault =
      (.failure "500" "subjects-1-latest.json",
        [apiRootDefault ++ "/subjects/subjects-1-latest.json"]) ∧
    get_api_subjects httpFirst200 apiRootDefault =
      (.failure "500" "subjects-2-latest.json",
        [apiRootDefault ++ "/subjects/subjects-1-latest.json",
         apiRootDefault ++ "/subjects/subjects-2-latest.json"]) ∧
    get_api_blood httpAll404 Val.nan apiRootDefault =
      (.failure "500" "blood-1-latest.json",
        [apiRootDefault ++ "/blood/blood-1-latest.json"]) ∧
    get_api_blood httpFirst200 Val.nan apiRootDefault =
      (.failure "500" "blood-2-latest.json",
        [apiRootDefault ++ "/blood/blood-1-latest.json",
         apiRootDefault ++ "/blood/blood-2-latest.json"]) :=
  ⟨(fetch_failure_propagation httpAll404 Val.nan apiRootDefault).1 (by decide),
   (fetch_failure_propagation httpFirst200 Val.nan apiRootDefault).2.1
     (by decide) (by decide) (by decide),
   (fetch_failure_propagation httpAll404 Val.nan apiRootDefault).2.2.1 (by decide),
   (fetch_failure_propagation httpFirst200 Val.nan apiRootDefault).2.2.2
     (by decide) (by decide) (by decide)⟩


/-!
## Claim C9
-/

theorem getD_set_self (l : List Val) (j : Nat) (w d : Val) :
    (l.set j w).getD j d = if j < l.length then w else l.getD j d := by
  induction l generalizing j with
  | nil => simp [List.set]
  | cons a t ih =>
    cases j with
    | zero => simp
    | succ n => simpa [List.set, List.getD] using ih n

theorem set_out_of_range (l : List Val) (j : Nat) (w : Val) (h : ¬ j < l.length) :
    l.set j w = l := by
  induction l generalizing j with
  | nil => rfl
  | cons a t ih =>
    cases j with
    | zero => exact absurd (Nat.zero_lt_succ _) h
    | succ n =>
      simp only [List.set]
      rw [ih n (fun hn => h (Nat.succ_lt_succ hn))]

theorem floatCastCell_nan : floatCastCell Val.nan = .ok Val.nan := rfl

theorem floatCastCell_idem (v w : Val) (h : floatCastCell v = .ok w) :
    floatCastCell w = .ok w := by
  cases v with
  | vint n => rw [← Except.ok.inj h]; rfl
  | vfloat q => rw [← Except.ok.inj h]; rfl
  | nan => rw [← Except.ok.inj h]; rfl
  | vbool b => rw [← Except.ok.inj h]; rfl
  | vstr s =>
    simp only [floatCastCell] at h
    cases hp : parseDecimal s with
    | none => rw [hp] at h; exact absurd h (by simp)
    | some p => rw [hp] at h; rw [← Except.ok.inj h]; rfl
  | vtime t => exact absurd h (by simp [floatCastCell])
  | vtd t => exact absurd h (by simp [floatCastCell])
  | vrec1 d => exact absurd h (by simp [floatCastCell])
  | vrec2 d => exact absurd h (by simp [floatCastCell])

theorem castColFloatRows_idem (j : Nat) (rows rows2 : List (List Val))
    (h : castColFloatRows j rows = .ok rows2) :
    castColFloatRows j rows2 = .ok rows2 := by
  induction rows generalizing rows2 with
  | nil =>
    simp only [castColFloatRows] at h
    rw [← Except.ok.inj h]
    rfl
  | cons r rest ih =>
    simp only [castColFloatRows] at h
    cases hc : floatCastCell (r.getD j .nan) with
    | error e => rw [hc] at h; exact absurd h (by simp)
    | ok w =>
      rw [hc] at h
      cases ht : castColFloatRows j rest with
      | error e => rw [ht] at h; exact absurd h (by simp)
      | ok tail =>
        rw [ht] at h
        rw [← Except.ok.inj h]
        by_cases hj : j < r.length
        · have hget : (r.set j w).getD j .nan = w := by
            rw [getD_set_self]
            simp [hj]
          simp only [castColFloatRows, hget, floatCastCell_idem _ w hc, ih tail ht,
            List.set_set]
        · have hget : r.getD j .nan = Val.nan := by
            rw [List.getD_eq_default]
            exact Nat.le_of_not_lt hj
          rw [hget] at hc
          have hw : w = Val.nan := (Except.ok.inj hc).symm
          have hset : r.set j w = r := set_out_of_range r j w hj
          have hset2 : r.set j Val.nan = r := set_out_of_range r j Val.nan hj
          simp only [hw, hset2] at hset ⊢
          simp only [castColFloatRows, hget, floatCastCell_nan, ih tail ht, hset2]

theorem castColFloat_idem (t t2 : DF) (i : String)
    (h : castColFloat t i = .ok t2) : castColFloat t2 i = .ok t2 := by
  unfold castColFloat at h ⊢
  cases hr : castColFloatRows (t.colIdx i) t.rows with
  | error e => rw [hr] at h; exact absurd h (by simp)
  | ok rows =>
    rw [hr] at h
    have ht2 : t2 = { cols := t.cols, rows := rows } := (Except.ok.inj h).symm
    have hidx : t2.colIdx i = t.colIdx i := by rw [ht2]; rfl
    have hrows : t2.rows = rows := by rw [ht2]
    rw [hidx, hrows, castColFloatRows_idem _ t.rows rows hr, ht2]

theorem mergeDisplayLoop_stable (entries : DDict) :
    ∀ (subs : DF),
      mergeDisplayLoop subs ((mergeDisplayLoop subs entries).2)
        = mergeDisplayLoop subs entries := by
  induction entries with
  | nil => intro subs; rfl
  | cons p rest ih =>
    intro subs
    obtain ⟨i, t⟩ := p
    simp only [mergeDisplayLoop]
    by_cases h1 : subs.hasCol i
    · simp only [h1, if_true]
      by_cases h2 : inferDtype (subs.col i) = Dtype.float64
      · simp only [h2, if_true]
        cases hc : castColFloat t i with
        | error e =>
          simp only [mergeDisplayLoop, h1, if_true, h2, hc]
        | ok t2 =>
          simp only [mergeDisplayLoop, h1, if_true, h2, castColFloat_idem t t2 i hc,
            ih (mergeLeft subs t2 i)]
      · simp only [h2, Bool.false_eq_true, if_false, mergeDisplayLoop, h1, if_true,
          ih (mergeLeft subs t i)]
    · simp only [h1, Bool.false_eq_true, if_false, mergeDisplayLoop,
        ih subs]

theorem clean_subjects_data_stable (raw : DF) (dd : DDict) :
    clean_subjects_data raw ((clean_subjects_data raw dd).2)
      = clean_subjects_data raw dd := by
  simp only [clean_subjects_data]
  cases hd : (raw.renameCols (fun c => if c = "index" then "record_id" else c)).dropColsE
      ["adverse_effects"] with
  | error e => rfl
  | ok s2 =>
    by_cases hr : (replaceNADF s2).hasCol "dem_race"
    · simp only [hr, Bool.not_true, Bool.false_eq_true, if_false]
      exact mergeDisplayLoop_stable dd _
    · simp only [hr, Bool.not_false, if_true]

/-- C9: running the subjects-cleaning pipeline a second time — with the
display-dictionary state left behind by the first run (the only state any of
these functions carries over: the in-place float casts of lines 182-184) —
produces exactly the same result and the same dictionary state.  No step
depends on a timestamp or randomness (the pipeline is a function of its
inputs); the float cast is idempotent, so the carried-over mutation cannot
change the second run's output tables. -/
theorem subjects_pipeline_deterministic (subjects_raw screening_sites : DF)
    (dd : DDict) :
    subjects_pipeline subjects_raw screening_sites
        ((subjects_pipeline subjects_raw screening_sites dd).2)
      = subjects_pipeline subjects_raw screening_sites dd := by
  have hsnd : (subjects_pipeline subjects_raw screening_sites dd).2
      = (clean_subjects_data subjects_raw dd).2 := by
    simp only [subjects_pipeline]
    cases h1 : (clean_subjects_data subjects_raw dd).1 with
    | error e => rfl
    | ok subjects0 =>
      dsimp only
      cases h2 : add_screening_site screening_sites subjects0 "record_id" with
      | error e => rfl
      | ok subjects =>
        dsimp only
        cases h3 : get_consented_subjects subjects with
        | error e => rfl
        | ok consented => rfl
  rw [hsnd]
  simp only [subjects_pipeline, clean_subjects_data_stable subjects_raw dd]

/-!
## Claim C5
-/

/-- The row a range contributes to the sqlite `ss` table. -/
def rangeRowOf (t : Int × Int × String) : List Val :=
  [.vint t.1, .vint t.2.1, .vstr t.2.2]

/-- A screening-site range table from (start, end, site) triples. -/
def mkRangesDF (ranges : List (Int × Int × String)) : DF :=
  { cols := ["record_id_start", "record_id_end", "screening_site"]
    rows := ranges.map rangeRowOf }

/-- Spec-side range lookup: the first range whose closed interval contains
the id (the unique one, when the ranges are disjoint). -/
def rangesFind : List (Int × Int × String) → Int → Option String
  | [], _ => none
  | t :: rest, n => if t.1 ≤ n ∧ n ≤ t.2.1 then some t.2.2 else rangesFind rest n

/-- Spec-side description of the range join: subjects whose id lies in some
range get that range's site prepended (id first, site second, then the other
columns); subjects in no range are dropped. -/
def screeningSiteSpec (ranges : List (Int × Int × String)) (df : DF)
    (id_col : String) : DF :=
  { cols := id_col :: "screening_site" :: df.cols.filter (fun c => c ≠ id_col)
    rows := df.rows.filterMap (fun row =>
      match df.cellAt row id_col with
      | .vint n =>
        (rangesFind ranges n).map (fun site =>
          Val.vint n :: Val.vstr site ::
            (df.cols.filter (fun c => c ≠ id_col)).map (df.cellAt row))
      | _ => none) }

theorem sqlBetween_int (n a b : Int) :
    sqlBetween (.vint n) (.vint a) (.vint b) = (decide (a ≤ n) && decide (n ≤ b)) := by
  simp only [sqlBetween, Val.numOf]
  rw [decide_eq_decide.mpr Int.cast_le, decide_eq_decide.mpr Int.cast_le]

theorem flatMap_congr_mem {α β : Type} (l : List α) (f g : α → List β)
    (h : ∀ x ∈ l, f x = g x) : l.flatMap f = l.flatMap g := by
  induction l with
  | nil => rfl
  | cons a t ih =>
    simp only [List.flatMap_cons]
    rw [h a (List.mem_cons_self a t), ih (fun x hx => h x (List.mem_cons_of_mem a hx))]

theorem flatMap_toList_eq_filterMap {α β : Type} (l : List α) (f : α → Option β) :
    l.flatMap (fun x => (f x).toList) = l.filterMap f := by
  induction l with
  | nil => rfl
  | cons a t ih =>
    simp only [List.flatMap_cons, List.filterMap_cons]
    cases f a <;> simp [ih]

/-- Interval disjointness of two ranges. -/
def rangesDisjoint (a b : Int × Int × String) : Prop :=
  ∀ x : Int, a.1 ≤ x → x ≤ a.2.1 → ¬(b.1 ≤ x ∧ x ≤ b.2.1)

/-- The (id, site) pairs the inner join produces for one subject id. -/
def siteHitsFor (ranges : List (Int × Int × String)) (n : Int) : List (List Val) :=
  ranges.filterMap (fun t =>
    if t.1 ≤ n ∧ n ≤ t.2.1 then some [Val.vint n, Val.vstr t.2.2] else none)

theorem siteHitsFor_nil (ranges : List (Int × Int × String)) (n : Int)
    (h : ∀ t ∈ ranges, ¬(t.1 ≤ n ∧ n ≤ t.2.1)) : siteHitsFor ranges n = [] := by
  induction ranges with
  | nil => rfl
  | cons t rest ih =>
    simp only [siteHitsFor, List.filterMap_cons] at ih ⊢
    rw [if_neg (h t (List.mem_cons_self t rest))]
    exact ih (fun u hu => h u (List.mem_cons_of_mem t hu))

theorem siteHitsFor_disjoint (ranges : List (Int × Int × String))
    (hd : List.Pairwise rangesDisjoint ranges) (n : Int) :
    siteHitsFor ranges n
      = (rangesFind ranges n).toList.map (fun s => [Val.vint n, Val.vstr s]) := by
  induction ranges with
  | nil => rfl
  | cons t rest ih =>
    obtain ⟨htr, hrest⟩ := List.pairwise_cons.mp hd
    by_cases hin : t.1 ≤ n ∧ n ≤ t.2.1
    · have hrest0 : siteHitsFor rest n = [] :=
        siteHitsFor_nil rest n (fun u hu => htr u hu n hin.1 hin.2)
      simp only [siteHitsFor, List.filterMap_cons, if_pos hin, rangesFind] at hrest0 ⊢
      rw [hrest0]
      rfl
    · simp only [siteHitsFor, List.filterMap_cons, if_neg hin, rangesFind] at ih ⊢
      exact ih hrest

theorem sites_filterMap_eq (dfr : DF)
    (h0 : dfr.colIdx "record_id_start" = 0)
    (h1 : dfr.colIdx "record_id_end" = 1)
    (h2 : dfr.colIdx "screening_site" = 2)
    (ranges : List (Int × Int × String)) (n : Int) :
    ((ranges.map rangeRowOf).filterMap (fun r =>
      if sqlBetween (.vint n) (dfr.cellAt r "record_id_start")
          (dfr.cellAt r "record_id_end")
      then some [Val.vint n, dfr.cellAt r "screening_site"] else none))
    = siteHitsFor ranges n := by
  induction ranges with
  | nil => rfl
  | cons t rest ih =>
    simp only [List.map_cons, List.filterMap_cons, siteHitsFor] at ih ⊢
    have e0 : dfr.cellAt (rangeRowOf t) "record_id_start" = Val.vint t.1 := by
      simp [DF.cellAt, h0, rangeRowOf]
    have e1 : dfr.cellAt (rangeRowOf t) "record_id_end" = Val.vint t.2.1 := by
      simp [DF.cellAt, h1, rangeRowOf]
    have e2 : dfr.cellAt (rangeRowOf t) "screening_site" = Val.vstr t.2.2 := by
      simp [DF.cellAt, h2, rangeRowOf]
    rw [e0, e1, e2, sqlBetween_int]
    by_cases hin : t.1 ≤ n ∧ n ≤ t.2.1
    · have hb : (decide (t.1 ≤ n) && decide (n ≤ t.2.1)) = true := by
        simp [hin.1, hin.2]
      rw [hb]
      simp only [if_pos hin, if_true]
      exact congrArg _ ih
    · have hb : (decide (t.1 ≤ n) && decide (n ≤ t.2.1)) = false := by
        simp only [Bool.and_eq_false_iff, decide_eq_false_iff_not]
        rcases Decidable.em (t.1 ≤ n) with hl | hl
        · exact Or.inr (fun hr => hin ⟨hl, hr⟩)
        · exact Or.inl hl
      rw [hb]
      simp only [if_neg hin, Bool.false_eq_true, if_false]
      exact ih

theorem keyMatches_int_refl (n : Int) : keyMatches (.vint n) (.vint n) = true := by
  simp [keyMatches, Val.numOf]

theorem keyMatches_int_ne (n m : Int) (h : n ≠ m) :
    keyMatches (.vint n) (.vint m) = false := by
  simp only [keyMatches, Val.numOf]
  rw [beq_eq_false_iff_ne]
  exact fun hc => h (Int.cast_injective hc)

theorem filter_none {α : Type} (p : α → Bool) (l : List α)
    (h : ∀ x ∈ l, p x = false) : l.filter p = [] := by
  induction l with
  | nil => rfl
  | cons a t ih =>
    simp only [List.filter_cons, h a (List.mem_cons_self a t), Bool.false_eq_true,
      if_false]
    exact ih fun x hx => h x (List.mem_cons_of_mem a hx)

/-- With all-integer, duplicate-free keys, the pandas merge matches of a key
present in the frame are exactly its own row. -/
theorem filter_key_unique (df : DF) (id_col : String) (l : List (List Val))
    (n : Int) (row : List Val)
    (hvals : ∀ rr ∈ l, ∃ m : Int, df.cellAt rr id_col = .vint m)
    (hnd : (l.map (fun rr => df.cellAt rr id_col)).Nodup)
    (hmem : row ∈ l) (hcell : df.cellAt row id_col = .vint n) :
    l.filter (fun rr => keyMatches (.vint n) (df.cellAt rr id_col)) = [row] := by
  induction l with
  | nil => cases hmem
  | cons a t ih =>
    rw [List.map_cons, List.nodup_cons] at hnd
    rcases List.mem_cons.mp hmem with heq | hmem2
    · subst heq
      simp only [List.filter_cons]
      rw [hcell, keyMatches_int_refl, if_pos rfl]
      congr 1
      apply filter_none
      intro rr hrr
      obtain ⟨m, hm⟩ := hvals rr (List.mem_cons_of_mem row hrr)
      rw [hm]
      apply keyMatches_int_ne
      intro hc
      apply hnd.1
      have he : df.cellAt row id_col = df.cellAt rr id_col := by rw [hcell, hm, hc]
      rw [he]
      exact List.mem_map_of_mem _ hrr
    · obtain ⟨k, hk⟩ := hvals a (List.mem_cons_self a t)
      have hkn : n ≠ k := by
        intro hc
        apply hnd.1
        have he : df.cellAt a id_col = df.cellAt row id_col := by
          rw [hk, hcell, hc]
        rw [he]
        exact List.mem_map_of_mem _ hmem2
      simp only [List.filter_cons]
      rw [hk, keyMatches_int_ne n k hkn]
      rw [if_neg (by simp)]
      exact ih (fun rr hrr => hvals rr (List.mem_cons_of_mem a hrr)) hnd.2 hmem2

theorem flatMap_map_eq {α β γ : Type} (l : List α) (f : α → β) (g : β → List γ) :
    (l.map f).flatMap g = l.flatMap (fun x => g (f x)) := by
  induction l with
  | nil => rfl
  | cons a t ih => simp only [List.map_cons, List.flatMap_cons, ih]

theorem flatMap_flatMap {α β γ : Type} (l : List α) (f : α → List β)
    (g : β → List γ) :
    (l.flatMap f).flatMap g = l.flatMap (fun x => (f x).flatMap g) := by
  induction l with
  | nil => rfl
  | cons a t ih => simp only [List.flatMap_cons, List.flatMap_append, ih]

theorem mkRanges_sqlScalar (ranges : List (Int × Int × String)) :
    (mkRangesDF ranges).rows.all (fun r => r.all sqlScalar) = true := by
  rw [List.all_eq_true]
  intro r hr
  obtain ⟨t, ht, rfl⟩ := List.mem_map.mp hr
  rfl

theorem cellAt_pair (cols2 : List String) (c : String)
    (rows2 : List (List Val)) (a b : Val) :
    (DF.mk (c :: cols2) rows2).cellAt [a, b] c = a := by
  simp [DF.cellAt, DF.colIdx, List.indexOf_cons_self]

/-- C5: for every screening-site range table with pairwise disjoint closed
ranges and every subjects table with integer, duplicate-free ids,
`add_screening_site` succeeds and returns exactly the table that attaches to
each subject whose id lies in some range that range's unique site value
(`rangesFind`), and drops every subject whose id lies in no range. -/
theorem add_screening_site_ranges (ranges : List (Int × Int × String)) (df : DF)
    (id_col : String)
    (hdisj : List.Pairwise rangesDisjoint ranges)
    (hid : df.hasCol id_col = true)
    (hvals : ∀ rr ∈ df.rows, ∃ m : Int, df.cellAt rr id_col = .vint m)
    (hnd : (df.rows.map (fun rr => df.cellAt rr id_col)).Nodup) :
    add_screening_site (mkRangesDF ranges) df id_col
      = .ok (screeningSiteSpec ranges df id_col) := by
  have hall : (df.col id_col).all sqlScalar = true := by
    rw [List.all_eq_true]
    intro v hv
    rw [DF.col] at hv
    obtain ⟨rr, hrr, rfl⟩ := List.mem_map.mp hv
    obtain ⟨m, hm⟩ := hvals rr hrr
    rw [hm]
    rfl
  have hscal := mkRanges_sqlScalar ranges
  have hc1 : (mkRangesDF ranges).hasCol "record_id_start" = true := rfl
  have hc2 : (mkRangesDF ranges).hasCol "record_id_end" = true := rfl
  have hc3 : (mkRangesDF ranges).hasCol "screening_site" = true := rfl
  simp only [add_screening_site, hid, hall, hscal, hc1, hc2, hc3, Bool.and_self,
    Bool.and_true, Bool.not_true, Bool.false_eq_true, if_false]
  simp only [mergeLeft, screeningSiteSpec]
  rw [Except.ok.injEq, DF.mk.injEq]
  refine ⟨rfl, ?_⟩
  simp only [DF.col]
  rw [flatMap_map_eq, flatMap_flatMap, ← flatMap_toList_eq_filterMap]
  apply flatMap_congr_mem
  intro rr hrr
  obtain ⟨m, hm⟩ := hvals rr hrr
  simp only [hm]
  have hr0 : (mkRangesDF ranges).rows = ranges.map rangeRowOf := rfl
  rw [hr0, sites_filterMap_eq (mkRangesDF ranges) rfl rfl rfl ranges m,
    siteHitsFor_disjoint ranges hdisj m]
  cases hf : rangesFind ranges m with
  | none => rfl
  | some s =>
    simp only [Option.toList_some, Option.map_some', List.map_cons, List.map_nil,
      List.flatMap_cons, List.flatMap_nil, List.append_nil]
    rw [cellAt_pair]
    rw [filter_key_unique df id_col df.rows m rr hvals hnd hrr hm]
    simp only [List.isEmpty_cons, Bool.false_eq_true, if_false, List.map_cons,
      List.map_nil]
    rfl

/-- Witness for C5: ranges [1,10] -> "A", [11,20] -> "B"; subject ids 5, 15,
25.  Id 5 gets site "A", id 15 gets "B", id 25 (in no range) is dropped. -/
theorem add_screening_site_ranges_witness :
    add_screening_site (mkRangesDF [(1, 10, "A"), (11, 20, "B")])
        (DF.mk ["record_id", "name"]
          [[.vint 5, .vstr "x"], [.vint 15, .vstr "y"], [.vint 25, .vstr "z"]])
        "record_id"
      = .ok (screeningSiteSpec [(1, 10, "A"), (11, 20, "B")]
          (DF.mk ["record_id", "name"]
            [[.vint 5, .vstr "x"], [.vint 15, .vstr "y"], [.vint 25, .vstr "z"]])
          "record_id")
    ∧ screeningSiteSpec [(1, 10, "A"), (11, 20, "B")]
        (DF.mk ["record_id", "name"]
          [[.vint 5, .vstr "x"], [.vint 15, .vstr "y"], [.vint 25, .vstr "z"]])
        "record_id"
      = DF.mk ["record_id", "screening_site", "name"]
          [[.vint 5, .vstr "A", .vstr "x"], [.vint 15, .vstr "B", .vstr "y"]] := by
  constructor
  · apply add_screening_site_ranges
    · constructor
      · intro t ht
        rw [List.mem_singleton] at ht
        subst ht
        intro x h1 h2 hc
        exact absurd (le_trans hc.1 h2) (by decide)
      · constructor
        · intro t ht
          exact absurd ht (List.not_mem_nil t)
        · constructor
    · rfl
    · intro rr hrr
      simp only [List.mem_cons, List.not_mem_nil, or_false] at hrr
      rcases hrr with rfl | rfl | rfl
      · exact ⟨5, rfl⟩
      · exact ⟨15, rfl⟩
      · exact ⟨25, rfl⟩
    · decide
  · rfl

/-!
## Claim C4
-/

/-- C4 counterexample input: two subjects with race strings "1" and "2|3". -/
def rawC4 : DF :=
  DF.mk ["index", "adverse_effects", "dem_race"]
    [[.vstr "i1", Val.nan, .vstr "1"], [.vstr "i2", Val.nan, .vstr "2|3"]]

/-- The frame after rename and drop in the C4 counterexample. -/
def s2C4 : DF :=
  DF.mk ["record_id", "dem_race"]
    [[.vstr "i1", .vstr "1"], [.vstr "i2", .vstr "2|3"]]

/-- The cleaned output in the C4 counterexample. -/
def outC4 : DF :=
  DF.mk ["record_id", "dem_race", "dem_race_original"]
    [[.vstr "i1", .vint 1, .vstr "1"], [.vstr "i2", .vint 8, .vstr "2|3"]]

/-- C4 counterexample: the race column ["1", "2|3"] is not purely numeric, so
the race staging runs; but after the overwrite the column holds only the
numeric strings "1" and "8", and the global `to_numeric(errors='ignore')` pass
converts it, so the cleaned output carries the NUMBER 8 (and 1), not the
sentinel string "8", and the no-delimiter value "1" does not survive
unchanged. -/
theorem race_overwrite_counterexample :
    (clean_subjects_data rawC4 []).1 = .ok outC4
    ∧ (inferDtype ((replaceNADF s2C4).col "dem_race")).isNumeric = false
    ∧ outC4.col "dem_race" = [.vint 1, .vint 8]
    ∧ Val.vint 8 ≠ Val.vstr "8" ∧ Val.vint 1 ≠ Val.vstr "1" := by
  exact ⟨rfl, rfl, rfl, by decide, by decide⟩

theorem hasCol_mem (df : DF) (c : String) (h : df.hasCol c = true) : c ∈ df.cols := by
  simpa [DF.hasCol] using h

theorem getD_set_ne (l : List Val) (i j : Nat) (w d : Val) (h : i ≠ j) :
    (l.set i w).getD j d = l.getD j d := by
  simp only [List.getD_eq_getElem?_getD, List.getElem?_set_ne h]

theorem zip_self_map {α β : Type} (l : List α) (f : α → β) :
    l.zip (l.map f) = l.map (fun x => (x, f x)) := by
  induction l with
  | nil => rfl
  | cons a t ih => simp only [List.map_cons, List.zip_cons_cons, ih]

theorem indexOf_append_not_mem (l1 l2 : List String) (c : String) (h : c ∉ l1) :
    (l1 ++ l2).indexOf c = l1.length + l2.indexOf c := by
  induction l1 with
  | nil => simp
  | cons a t ih =>
    have hbc : a ≠ c := fun hc => h (hc ▸ List.mem_cons_self a t)
    rw [List.cons_append, List.indexOf_cons_ne _ hbc,
      ih (fun hc => h (List.mem_cons_of_mem a hc))]
    simp only [List.length_cons]
    omega

theorem wf_cells (df : DF) (hwf : df.wf = true) (r : List Val) (hr : r ∈ df.rows) :
    r.length = df.cols.length := by
  rw [DF.wf, List.all_eq_true] at hwf
  simpa using hwf r hr

theorem replaceNADF_wf (df : DF) (h : df.wf = true) : (replaceNADF df).wf = true := by
  rw [DF.wf, List.all_eq_true]
  intro r hr
  simp only [replaceNADF, DF.replaceCell] at hr
  obtain ⟨r0, hr0, rfl⟩ := List.mem_map.mp hr
  simp [replaceNADF, DF.replaceCell, wf_cells df h r0 hr0]

/-- Expanded form of the race staging: the original race column is appended
under `dem_race_original`, then the race position is overwritten. -/
theorem raceStage_expand (df : DF) (hno : df.hasCol "dem_race_original" = false) :
    raceStage df
      = DF.mk (df.cols ++ ["dem_race_original"])
          (df.rows.map (fun r =>
            (r ++ [df.cellAt r "dem_race"]).set
              ((df.cols ++ ["dem_race_original"]).indexOf "dem_race")
              (raceOverwrite ((r ++ [df.cellAt r "dem_race"]).getD
                ((df.cols ++ ["dem_race_original"]).indexOf "dem_race") .nan)))) := by
  simp only [raceStage, DF.setColVals, hno, Bool.false_eq_true, if_false, DF.mapCol,
    DF.col, zip_self_map, List.map_map, DF.colIdx]
  rfl

theorem raceStage_cols (df : DF) (hno : df.hasCol "dem_race_original" = false) :
    (raceStage df).cols = df.cols ++ ["dem_race_original"] := by
  rw [raceStage_expand df hno]

theorem raceStage_wf (df : DF) (hwf : df.wf = true)
    (hno : df.hasCol "dem_race_original" = false) :
    (raceStage df).wf = true := by
  rw [raceStage_expand df hno, DF.wf, List.all_eq_true]
  intro r hr
  obtain ⟨r0, hr0, rfl⟩ := List.mem_map.mp hr
  simp [wf_cells df hwf r0 hr0]

/-- The race staging preserves each original race value in the new
`dem_race_original` column. -/
theorem raceStage_col_orig (df : DF) (hwf : df.wf = true)
    (hdr : df.hasCol "dem_race" = true)
    (hno : df.hasCol "dem_race_original" = false) :
    (raceStage df).col "dem_race_original" = df.col "dem_race" := by
  have hmem := hasCol_mem df "dem_race" hdr
  have hnomem : "dem_race_original" ∉ df.cols := by
    intro hc
    have hcc : df.hasCol "dem_race_original" = true := by simpa [DF.hasCol] using hc
    rw [hcc] at hno
    exact Bool.noConfusion hno
  have hidx : (df.cols ++ ["dem_race_original"]).indexOf "dem_race"
      = df.cols.indexOf "dem_race" := List.indexOf_append_of_mem hmem
  have hidxlt : df.cols.indexOf "dem_race" < df.cols.length :=
    List.indexOf_lt_length.mpr hmem
  have hidxo : (df.cols ++ ["dem_race_original"]).indexOf "dem_race_original"
      = df.cols.length := by
    rw [indexOf_append_not_mem _ _ _ hnomem]
    simp
  rw [raceStage_expand df hno]
  simp only [DF.col, DF.cellAt, DF.colIdx, List.map_map]
  apply List.map_congr_left
  intro r hr
  have hlen := wf_cells df hwf r hr
  simp only [Function.comp_apply, hidx, hidxo]
  rw [getD_set_ne _ _ _ _ _ (Nat.ne_of_lt (hlen ▸ hidxlt))]
  rw [List.getD_append_right r _ _ _ (Nat.le_of_eq hlen)]
  simp [hlen]

/-- The race staging overwrites the race column pointwise with
`raceOverwrite`. -/
theorem raceStage_col_race (df : DF) (hwf : df.wf = true)
    (hdr : df.hasCol "dem_race" = true)
    (hno : df.hasCol "dem_race_original" = false) :
    (raceStage df).col "dem_race" = (df.col "dem_race").map raceOverwrite := by
  have hmem := hasCol_mem df "dem_race" hdr
  have hidx : (df.cols ++ ["dem_race_original"]).indexOf "dem_race"
      = df.cols.indexOf "dem_race" := List.indexOf_append_of_mem hmem
  have hidxlt : df.cols.indexOf "dem_race" < df.cols.length :=
    List.indexOf_lt_length.mpr hmem
  rw [raceStage_expand df hno]
  simp only [DF.col, DF.cellAt, DF.colIdx, List.map_map]
  apply List.map_congr_left
  intro r hr
  have hlen := wf_cells df hwf r hr
  simp only [Function.comp_apply, hidx]
  rw [getD_set_self]
  rw [if_pos (by simp only [List.length_set, List.length_append, List.length_cons,
    List.length_nil]; omega)]
  rw [List.getD_append _ _ _ _ (hlen ▸ hidxlt)]

theorem toNumericIgnoreDF_cols (df : DF) : (toNumericIgnoreDF df).cols = df.cols := rfl

theorem toNumericIgnoreDF_wf (df : DF) : (toNumericIgnoreDF df).wf = true := by
  rw [DF.wf, List.all_eq_true]
  intro r hr
  simp only [toNumericIgnoreDF] at hr
  obtain ⟨j, hj, rfl⟩ := List.mem_map.mp hr
  simp [toNumericIgnoreDF]

theorem mergeLeft_wf (l r : DF) (key : String) (hwf : l.wf = true) :
    (mergeLeft l r key).wf = true := by
  rw [DF.wf, List.all_eq_true]
  intro row hrow
  simp only [mergeLeft] at hrow
  obtain ⟨lrow, hl, hm⟩ := List.mem_flatMap.mp hrow
  have hlen := wf_cells l hwf lrow hl
  split at hm
  · rw [List.mem_singleton] at hm
    subst hm
    simp [mergeLeft, hlen]
  · obtain ⟨rr, hrr, rfl⟩ := List.mem_map.mp hm
    simp [mergeLeft, hlen]

/-- Every row of a left merge extends some row of the left frame, agreeing
with it on every left column. -/
theorem mergeLeft_provenance (l r : DF) (key : String) (hwf : l.wf = true) :
    ∀ row ∈ (mergeLeft l r key).rows, ∃ lrow ∈ l.rows,
      ∀ c ∈ l.cols, (mergeLeft l r key).cellAt row c = l.cellAt lrow c := by
  intro row hrow
  simp only [mergeLeft] at hrow
  obtain ⟨lrow, hl, hm⟩ := List.mem_flatMap.mp hrow
  have hlen := wf_cells l hwf lrow hl
  have hcell : ∀ suffix : List Val, ∀ c ∈ l.cols,
      (mergeLeft l r key).cellAt (lrow ++ suffix) c = l.cellAt lrow c := by
    intro suffix c hc
    simp only [mergeLeft, DF.cellAt, DF.colIdx]
    rw [List.indexOf_append_of_mem hc]
    have hlt : l.cols.indexOf c < lrow.length := by
      rw [hlen]
      exact List.indexOf_lt_length.mpr hc
    exact List.getD_append _ _ _ _ hlt
  refine ⟨lrow, hl, ?_⟩
  split at hm
  · rw [List.mem_singleton] at hm
    subst hm
    exact hcell _
  · obtain ⟨rr, hrr, rfl⟩ := List.mem_map.mp hm
    exact hcell _

/-- Through the display merge loop, the subject frame's columns survive as a
prefix of the output columns, and every output row extends some subject row,
agreeing with it on every subject column. -/
theorem mergeDisplayLoop_provenance (dd : DDict) (out : DF) :
    ∀ subs : DF, subs.wf = true → (mergeDisplayLoop subs dd).1 = .ok out →
    (∃ ext, out.cols = subs.cols ++ ext)
    ∧ ∀ row ∈ out.rows, ∃ srow ∈ subs.rows,
        ∀ c ∈ subs.cols, out.cellAt row c = subs.cellAt srow c := by
  induction dd with
  | nil =>
    intro subs hwf hok
    simp only [mergeDisplayLoop] at hok
    have h := Except.ok.inj hok
    subst h
    exact ⟨⟨[], (List.append_nil _).symm⟩, fun row hr => ⟨row, hr, fun c hc => rfl⟩⟩
  | cons p rest ih =>
    obtain ⟨i, t⟩ := p
    intro subs hwf hok
    simp only [mergeDisplayLoop] at hok
    split at hok
    · split at hok
      · split at hok
        · simp at hok
        · rename_i t2 heq
          obtain ⟨⟨ext, hcols⟩, hprov⟩ :=
            ih (mergeLeft subs t2 i) (mergeLeft_wf subs t2 i hwf) hok
          constructor
          · exact ⟨t2.cols.filter (fun c => c ≠ i) ++ ext, by
              rw [hcols, show (mergeLeft subs t2 i).cols
                = subs.cols ++ t2.cols.filter (fun c => c ≠ i) from rfl,
                List.append_assoc]⟩
          · intro row hrow
            obtain ⟨srow2, hs2, hcell2⟩ := hprov row hrow
            obtain ⟨srow, hs, hcell⟩ :=
              mergeLeft_provenance subs t2 i hwf srow2 hs2
            exact ⟨srow, hs, fun c hc =>
              (hcell2 c (List.mem_append_left _ hc)).trans (hcell c hc)⟩
      · obtain ⟨⟨ext, hcols⟩, hprov⟩ :=
          ih (mergeLeft subs t i) (mergeLeft_wf subs t i hwf) hok
        constructor
        · exact ⟨t.cols.filter (fun c => c ≠ i) ++ ext, by
            rw [hcols, show (mergeLeft subs t i).cols
              = subs.cols ++ t.cols.filter (fun c => c ≠ i) from rfl,
              List.append_assoc]⟩
        · intro row hrow
          obtain ⟨srow2, hs2, hcell2⟩ := hprov row hrow
          obtain ⟨srow, hs, hcell⟩ := mergeLeft_provenance subs t i hwf srow2 hs2
          exact ⟨srow, hs, fun c hc =>
            (hcell2 c (List.mem_append_left _ hc)).trans (hcell c hc)⟩
    · obtain ⟨⟨ext, hcols⟩, hprov⟩ := ih subs hwf hok
      exact ⟨⟨ext, hcols⟩, hprov⟩

/-- C4 (amended): when the race column of the renamed, dropped and NA-replaced
subjects frame is not purely numeric, clean_subjects_data runs the race
staging: the staged frame carries each original race value in the new
`dem_race_original` column and its race column is the pointwise
`raceOverwrite` image (values containing the delimiter become "8", others are
left as they were); the side column reaches the output, and every output row
agrees with some row of the post-`to_numeric(errors='ignore')` staged frame on
all staged columns. -/
theorem race_overwrite_pipeline (raw s2 out : DF) (dd : DDict)
    (hdrop : (raw.renameCols
        (fun c => if c = "index" then "record_id" else c)).dropColsE
        ["adverse_effects"] = .ok s2)
    (hwf2 : s2.wf = true)
    (hdr : (replaceNADF s2).hasCol "dem_race" = true)
    (hno : (replaceNADF s2).hasCol "dem_race_original" = false)
    (hnum : (inferDtype ((replaceNADF s2).col "dem_race")).isNumeric = false)
    (hok : (clean_subjects_data raw dd).1 = .ok out) :
    (raceStage (replaceNADF s2)).col "dem_race_original"
        = (replaceNADF s2).col "dem_race"
    ∧ (raceStage (replaceNADF s2)).col "dem_race"
        = ((replaceNADF s2).col "dem_race").map raceOverwrite
    ∧ "dem_race_original" ∈ out.cols
    ∧ ∀ row ∈ out.rows,
        ∃ srow ∈ (toNumericIgnoreDF (raceStage (replaceNADF s2))).rows,
          ∀ c ∈ (raceStage (replaceNADF s2)).cols,
            out.cellAt row c
              = (toNumericIgnoreDF (raceStage (replaceNADF s2))).cellAt srow c := by
  have hwf3 : (replaceNADF s2).wf = true := replaceNADF_wf s2 hwf2
  have hok2 : (mergeDisplayLoop (toNumericIgnoreDF (raceStage (replaceNADF s2))) dd).1
      = .ok out := by
    simp only [clean_subjects_data] at hok
    rw [hdrop] at hok
    simp only [hdr, hnum, Bool.not_true, Bool.false_eq_true, if_false] at hok
    exact hok
  obtain ⟨⟨ext, hcols⟩, hprov⟩ :=
    mergeDisplayLoop_provenance dd out (toNumericIgnoreDF (raceStage (replaceNADF s2)))
      (toNumericIgnoreDF_wf _) hok2
  refine ⟨raceStage_col_orig _ hwf3 hdr hno, raceStage_col_race _ hwf3 hdr hno, ?_, ?_⟩
  · rw [hcols, toNumericIgnoreDF_cols, raceStage_cols _ hno]
    apply List.mem_append_left
    exact List.mem_append_right _ (List.mem_cons_self _ _)
  · intro row hrow
    obtain ⟨srow, hs, hcell⟩ := hprov row hrow
    refine ⟨srow, hs, ?_⟩
    intro c hc
    apply hcell
    rw [toNumericIgnoreDF_cols]
    exact hc

/-- C4 witness input: race values "W" and "B|A" (non-numeric even after the
overwrite, so the staged strings survive to the output). -/
def rawW4 : DF :=
  DF.mk ["index", "adverse_effects", "dem_race"]
    [[.vstr "i1", Val.nan, .vstr "W"], [.vstr "i2", Val.nan, .vstr "B|A"]]

/-- C4 witness frame after rename and drop. -/
def s2W4 : DF :=
  DF.mk ["record_id", "dem_race"]
    [[.vstr "i1", .vstr "W"], [.vstr "i2", .vstr "B|A"]]

/-- C4 witness output: "B|A" became "8", "W" survived, originals kept. -/
def outW4 : DF :=
  DF.mk ["record_id", "dem_race", "dem_race_original"]
    [[.vstr "i1", .vstr "W", .vstr "W"], [.vstr "i2", .vstr "8", .vstr "B|A"]]

/-- Witness for C4 at a concrete input. -/
theorem race_overwrite_pipeline_witness :
    (clean_subjects_data rawW4 []).1 = .ok outW4
    ∧ ((raceStage (replaceNADF s2W4)).col "dem_race_original"
          = (replaceNADF s2W4).col "dem_race"
      ∧ (raceStage (replaceNADF s2W4)).col "dem_race"
          = ((replaceNADF s2W4).col "dem_race").map raceOverwrite
      ∧ "dem_race_original" ∈ outW4.cols
      ∧ ∀ row ∈ outW4.rows,
          ∃ srow ∈ (toNumericIgnoreDF (raceStage (replaceNADF s2W4))).rows,
            ∀ c ∈ (raceStage (replaceNADF s2W4)).cols,
              outW4.cellAt row c
                = (toNumericIgnoreDF (raceStage (replaceNADF s2W4))).cellAt srow c) :=
  ⟨rfl, race_overwrite_pipeline rawW4 s2W4 outW4 [] rfl rfl rfl rfl rfl rfl⟩

/-!
## Claim C7
-/

/-- A column containing a string cell has object dtype. -/
theorem inferDtype_of_str_mem (vs : List Val) (s : String) (h : Val.vstr s ∈ vs) :
    inferDtype vs = .object := by
  have h1 : vs.isEmpty = false := by
    cases vs
    · cases h
    · rfl
  have h2 : vs.all Val.isInt = false := by
    cases hall : vs.all Val.isInt
    · rfl
    · rw [List.all_eq_true] at hall
      have hx := hall _ h
      simp [Val.isInt] at hx
  have h3 : vs.all (fun v => v.isInt || v.isFloatOrNan) = false := by
    cases hall : vs.all (fun v => v.isInt || v.isFloatOrNan)
    · rfl
    · rw [List.all_eq_true] at hall
      have hx := hall _ h
      simp [Val.isInt, Val.isFloatOrNan] at hx
  simp [inferDtype, h1, h2, h3]

